import Mathlib

/-!
# OpenVM soft-float runtime (`riscof/plugins/openvm/runtime/float_runtime.c`)

A shallow embedding of the RV32F emulation handlers.

* Memory is byte addressed and little endian (RV32); the two register files are
  memory mapped exactly as the `freg_ptr` / `xreg` macros compute their addresses.
* A C `float` is its 32-bit IEEE-754 binary32 pattern, held in a `Nat`.
* The compiler-rt entry points (`__addsf3`, ...) are external to the repository and are
  a parameter (`Prims`) of every handler that calls them.  `ieeePrims` is a reference
  instance following the contract the specification gives for them.
* The C operators the source applies directly to `float` values (`==`, `!=`, `<`,
  unary `-`) have their IEEE-754 meaning on bit patterns.
-/

set_option linter.unusedVariables false
set_option maxRecDepth 100000
set_option exponentiation.threshold 1024

namespace OpenVM

/-! ## Memory-mapped register spaces -/

/-- Byte-addressed memory: address to byte. Only the low 8 bits of a cell are observable. -/
abbrev Mem := Nat → Nat

/-- Size of the 32-bit address / `uint32_t` space. -/
def WORD : Nat := 4294967296

/-- A little-endian 32-bit load, the access `*(volatile uint32_t *)a`. -/
def load32 (m : Mem) (a : Nat) : Nat :=
  m a % 256 + 256 * (m (a + 1) % 256) + 65536 * (m (a + 2) % 256)
    + 16777216 * (m (a + 3) % 256)

/-- A little-endian 32-bit store, the assignment `*(volatile uint32_t *)a = v`. -/
def store32 (m : Mem) (a v : Nat) : Mem := fun x =>
  if x = a then v % 256
  else if x = a + 1 then v / 256 % 256
  else if x = a + 2 then v / 65536 % 256
  else if x = a + 3 then v / 16777216 % 256
  else m x

/-- The macro constant `FLOAT_REG_BASE`. -/
def FLOAT_REG_BASE : Nat := 0xC0000000

/-- The macro constant `XREG_BASE`. -/
def XREG_BASE : Nat := 0xA0000000

/-- Address computed by `freg_ptr(n)`: `FLOAT_REG_BASE + n * 4` in `uint32_t` arithmetic. -/
def freg_ptr (n : Nat) : Nat := (FLOAT_REG_BASE + n * 4) % WORD

/-- Address computed by `xreg(n)`: `XREG_BASE + n * 16` in `uint32_t` arithmetic. -/
def xreg_ptr (n : Nat) : Nat := (XREG_BASE + n * 16) % WORD

/-- Reading the lvalue `xreg(n)`. -/
def xreg (m : Mem) (n : Nat) : Nat := load32 m (xreg_ptr n)

/-- Assigning to the lvalue `xreg(n)`. -/
def set_xreg (m : Mem) (n v : Nat) : Mem := store32 m (xreg_ptr n) v

/-- Reading `*(uint32_t *)freg_ptr(n)`: the raw pattern of float register `n`. -/
def freg_bits (m : Mem) (n : Nat) : Nat := load32 m (freg_ptr n)

/-- Assigning to `*(uint32_t *)freg_ptr(n)`. -/
def set_freg_bits (m : Mem) (n v : Nat) : Mem := store32 m (freg_ptr n) v

/-- The helper `read_freg_f32`: the float held in register `reg`, as its pattern. -/
def read_freg_f32 (m : Mem) (reg : Nat) : Nat := load32 m (freg_ptr reg)

/-- The helper `write_freg_f32`. -/
def write_freg_f32 (m : Mem) (reg value : Nat) : Mem := store32 m (freg_ptr reg) value

/-! ## IEEE-754 binary32 patterns and the C operators on `float` -/

/-- Sign bit of a pattern. -/
def f32_sign (x : Nat) : Nat := (x >>> 31) &&& 1

/-- Biased exponent field of a pattern. -/
def f32_exp (x : Nat) : Nat := (x >>> 23) &&& 0xFF

/-- Fraction field of a pattern. -/
def f32_mant (x : Nat) : Nat := x &&& 0x7FFFFF

/-- A pattern is a NaN when its exponent is all ones and its fraction is not zero. -/
def f32_isNaN (x : Nat) : Bool := f32_exp x == 0xFF && f32_mant x != 0

/-- A pattern is an infinity when its exponent is all ones and its fraction is zero. -/
def f32_isInf (x : Nat) : Bool := f32_exp x == 0xFF && f32_mant x == 0

/-- Magnitude of a non-NaN pattern in units of `2^-149`; an infinity is sent to `2^277`,
above every finite magnitude. -/
def f32_mag (x : Nat) : Nat :=
  if f32_exp x = 0 then f32_mant x else (8388608 + f32_mant x) * 2 ^ (f32_exp x - 1)

/-- Signed value of a non-NaN pattern in units of `2^-149` (both zeros are `0`). -/
def f32_val (x : Nat) : Int :=
  if f32_sign x = 0 then (f32_mag x : Int) else -(f32_mag x : Int)

/-- The C comparison `a == b` on floats: false when either is a NaN. -/
def f32_eq (a b : Nat) : Bool := !f32_isNaN a && !f32_isNaN b && f32_val a == f32_val b

/-- The C comparison `a != b` on floats: the negation of `==`. -/
def f32_ne (a b : Nat) : Bool := !f32_eq a b

/-- The C comparison `a < b` on floats: false when either is a NaN. -/
def f32_lt (a b : Nat) : Bool := !f32_isNaN a && !f32_isNaN b && decide (f32_val a < f32_val b)

/-- The C unary minus on a float: the sign bit is inverted, nothing else changes. -/
def f32_neg (x : Nat) : Nat := x ^^^ 0x80000000

/-- The float literal `0.0f`. -/
def F32_ZERO : Nat := 0x00000000

/-- The float literal `0.5f`. -/
def F32_HALF : Nat := 0x3F000000

/-- Modelled from the spec: the value of the constant expression `0.0f / 0.0f`, which is
supplied by the compiler (or by the division primitive it lowers to) and not by the
source. The specification gives it as the canonical quiet NaN `0x7FC00000`. -/
def F32_NAN_0_DIV_0 : Nat := 0x7FC00000

/-! ## The external arithmetic primitives -/

/-- The compiler-rt soft-float entry points declared `extern` by the runtime. Floats are
patterns, `int` results are integers. -/
structure Prims where
  /-- Single-precision addition. -/
  __addsf3 : Nat → Nat → Nat
  /-- Single-precision subtraction. -/
  __subsf3 : Nat → Nat → Nat
  /-- Single-precision multiplication. -/
  __mulsf3 : Nat → Nat → Nat
  /-- Single-precision division. -/
  __divsf3 : Nat → Nat → Nat
  /-- Equality comparison, zero when equal. -/
  __eqsf2 : Nat → Nat → Int
  /-- Less-than comparison, negative when less. -/
  __ltsf2 : Nat → Nat → Int
  /-- Less-or-equal comparison, not positive when less or equal. -/
  __lesf2 : Nat → Nat → Int
  /-- Float to signed integer. -/
  __fixsfsi : Nat → Int
  /-- Float to unsigned integer. -/
  __fixunssfsi : Nat → Nat
  /-- Signed integer to float. -/
  __floatsisf : Int → Nat
  /-- Unsigned integer to float. -/
  __floatunsisf : Nat → Nat

/-! ## Square-root approximation -/

/-- The loop body of `sqrtf_approx`, run `n` times from `guess`. -/
def sqrtf_loop (P : Prims) (x : Nat) : Nat → Nat → Nat
  | 0, guess => guess
  | n + 1, guess =>
    sqrtf_loop P x n (P.__mulsf3 (P.__addsf3 guess (P.__divsf3 x guess)) F32_HALF)

/-- The function `sqrtf_approx`. -/
def sqrtf_approx (P : Prims) (x : Nat) : Nat :=
  if f32_eq x F32_ZERO || f32_ne x x then x
  else if f32_lt x F32_ZERO then F32_NAN_0_DIV_0
  else sqrtf_loop P x 10 x

/-! ## The operation handlers -/

/-- The cast `(uint32_t)i` of a C `int`. -/
def int_to_u32 (i : Int) : Nat := (i % 4294967296).toNat

/-- The cast `(int32_t)v` of a `uint32_t`. -/
def u32_to_i32 (v : Nat) : Int :=
  if v % 4294967296 < 2147483648 then (v % 4294967296 : Nat) else (v % 4294967296 : Nat) - 4294967296

/-- Handler `_openvm_fadd_s`. -/
def _openvm_fadd_s (P : Prims) (m : Mem) (rs1 rs2 rd rm : Nat) : Mem :=
  let a := read_freg_f32 m rs1
  let b := read_freg_f32 m rs2
  write_freg_f32 m rd (P.__addsf3 a b)

/-- Handler `_openvm_fsub_s`. -/
def _openvm_fsub_s (P : Prims) (m : Mem) (rs1 rs2 rd rm : Nat) : Mem :=
  let a := read_freg_f32 m rs1
  let b := read_freg_f32 m rs2
  write_freg_f32 m rd (P.__subsf3 a b)

/-- Handler `_openvm_fmul_s`. -/
def _openvm_fmul_s (P : Prims) (m : Mem) (rs1 rs2 rd rm : Nat) : Mem :=
  let a := read_freg_f32 m rs1
  let b := read_freg_f32 m rs2
  write_freg_f32 m rd (P.__mulsf3 a b)

/-- Handler `_openvm_fdiv_s`. -/
def _openvm_fdiv_s (P : Prims) (m : Mem) (rs1 rs2 rd rm : Nat) : Mem :=
  let a := read_freg_f32 m rs1
  let b := read_freg_f32 m rs2
  write_freg_f32 m rd (P.__divsf3 a b)

/-- Handler `_openvm_fsqrt_s`. -/
def _openvm_fsqrt_s (P : Prims) (m : Mem) (rs1 rs2 rd rm : Nat) : Mem :=
  let a := read_freg_f32 m rs1
  write_freg_f32 m rd (sqrtf_approx P a)

/-- Handler `_openvm_fmin_s`. -/
def _openvm_fmin_s (P : Prims) (m : Mem) (rs1 rs2 rd rm : Nat) : Mem :=
  let a := read_freg_f32 m rs1
  let b := read_freg_f32 m rs2
  let a_is_nan := f32_ne a a
  let b_is_nan := f32_ne b b
  if a_is_nan && b_is_nan then write_freg_f32 m rd F32_NAN_0_DIV_0
  else if a_is_nan then write_freg_f32 m rd b
  else if b_is_nan then write_freg_f32 m rd a
  else write_freg_f32 m rd (if P.__ltsf2 a b < 0 then a else b)

/-- Handler `_openvm_fmax_s`. -/
def _openvm_fmax_s (P : Prims) (m : Mem) (rs1 rs2 rd rm : Nat) : Mem :=
  let a := read_freg_f32 m rs1
  let b := read_freg_f32 m rs2
  let a_is_nan := f32_ne a a
  let b_is_nan := f32_ne b b
  if a_is_nan && b_is_nan then write_freg_f32 m rd F32_NAN_0_DIV_0
  else if a_is_nan then write_freg_f32 m rd b
  else if b_is_nan then write_freg_f32 m rd a
  else write_freg_f32 m rd (if P.__ltsf2 a b > 0 then a else b)

/-- Handler `_openvm_fmadd_s`. -/
def _openvm_fmadd_s (P : Prims) (m : Mem) (rs1 rs2 rs3 rd rm : Nat) : Mem :=
  let a := read_freg_f32 m rs1
  let b := read_freg_f32 m rs2
  let c := read_freg_f32 m rs3
  write_freg_f32 m rd (P.__addsf3 (P.__mulsf3 a b) c)

/-- Handler `_openvm_fmsub_s`. -/
def _openvm_fmsub_s (P : Prims) (m : Mem) (rs1 rs2 rs3 rd rm : Nat) : Mem :=
  let a := read_freg_f32 m rs1
  let b := read_freg_f32 m rs2
  let c := read_freg_f32 m rs3
  write_freg_f32 m rd (P.__subsf3 (P.__mulsf3 a b) c)

/-- Handler `_openvm_fnmadd_s`. -/
def _openvm_fnmadd_s (P : Prims) (m : Mem) (rs1 rs2 rs3 rd rm : Nat) : Mem :=
  let a := read_freg_f32 m rs1
  let b := read_freg_f32 m rs2
  let c := read_freg_f32 m rs3
  write_freg_f32 m rd (P.__subsf3 (f32_neg (P.__mulsf3 a b)) c)

/-- Handler `_openvm_fnmsub_s`. -/
def _openvm_fnmsub_s (P : Prims) (m : Mem) (rs1 rs2 rs3 rd rm : Nat) : Mem :=
  let a := read_freg_f32 m rs1
  let b := read_freg_f32 m rs2
  let c := read_freg_f32 m rs3
  write_freg_f32 m rd (P.__subsf3 (f32_neg (P.__mulsf3 a b)) (f32_neg c))

/-- Handler `_openvm_fsgnj_s`. -/
def _openvm_fsgnj_s (m : Mem) (rs1 rs2 rd rm : Nat) : Mem :=
  let a := freg_bits m rs1
  let b := freg_bits m rs2
  let result := (a &&& 0x7FFFFFFF) ||| (b &&& 0x80000000)
  set_freg_bits m rd result

/-- Handler `_openvm_fsgnjn_s`; `~b` is the 32-bit complement. -/
def _openvm_fsgnjn_s (m : Mem) (rs1 rs2 rd rm : Nat) : Mem :=
  let a := freg_bits m rs1
  let b := freg_bits m rs2
  let result := (a &&& 0x7FFFFFFF) ||| ((b ^^^ 0xFFFFFFFF) &&& 0x80000000)
  set_freg_bits m rd result

/-- Handler `_openvm_fsgnjx_s`. -/
def _openvm_fsgnjx_s (m : Mem) (rs1 rs2 rd rm : Nat) : Mem :=
  let a := freg_bits m rs1
  let b := freg_bits m rs2
  let result := a ^^^ (b &&& 0x80000000)
  set_freg_bits m rd result

/-- Handler `_openvm_feq_s`. -/
def _openvm_feq_s (P : Prims) (m : Mem) (rs1 rs2 rm : Nat) : Mem :=
  let a := read_freg_f32 m rs1
  let b := read_freg_f32 m rs2
  set_xreg m 10 (if P.__eqsf2 a b = 0 then 1 else 0)

/-- Handler `_openvm_flt_s`. -/
def _openvm_flt_s (P : Prims) (m : Mem) (rs1 rs2 rm : Nat) : Mem :=
  let a := read_freg_f32 m rs1
  let b := read_freg_f32 m rs2
  set_xreg m 10 (if P.__ltsf2 a b < 0 then 1 else 0)

/-- Handler `_openvm_fle_s`. -/
def _openvm_fle_s (P : Prims) (m : Mem) (rs1 rs2 rm : Nat) : Mem :=
  let a := read_freg_f32 m rs1
  let b := read_freg_f32 m rs2
  set_xreg m 10 (if P.__lesf2 a b ≤ 0 then 1 else 0)

/-- Handler `_openvm_fcvt_w_s`. -/
def _openvm_fcvt_w_s (P : Prims) (m : Mem) (rs1 rs2 rm : Nat) : Mem :=
  let a := read_freg_f32 m rs1
  set_xreg m 10 (int_to_u32 (P.__fixsfsi a))

/-- Handler `_openvm_fcvt_wu_s`. -/
def _openvm_fcvt_wu_s (P : Prims) (m : Mem) (rs1 rs2 rm : Nat) : Mem :=
  let a := read_freg_f32 m rs1
  set_xreg m 10 (P.__fixunssfsi a)

/-- Handler `_openvm_fcvt_s_w`. -/
def _openvm_fcvt_s_w (P : Prims) (m : Mem) (rs1 rs2 rd rm : Nat) : Mem :=
  let a := u32_to_i32 (xreg m rs1)
  write_freg_f32 m rd (P.__floatsisf a)

/-- Handler `_openvm_fcvt_s_wu`. -/
def _openvm_fcvt_s_wu (P : Prims) (m : Mem) (rs1 rs2 rd rm : Nat) : Mem :=
  let a := xreg m rs1
  write_freg_f32 m rd (P.__floatunsisf a)

/-- Handler `_openvm_fmv_x_w`. -/
def _openvm_fmv_x_w (m : Mem) (rs1 rs2 rm : Nat) : Mem :=
  set_xreg m 10 (freg_bits m rs1)

/-- Handler `_openvm_fmv_w_x`. -/
def _openvm_fmv_w_x (m : Mem) (rs1 rs2 rd rm : Nat) : Mem :=
  set_freg_bits m rd (xreg m rs1)

/-- Handler `_openvm_fclass_s`. -/
def _openvm_fclass_s (m : Mem) (rs1 rs2 rm : Nat) : Mem :=
  let bits := freg_bits m rs1
  let exp := (bits >>> 23) &&& 0xFF
  let mant := bits &&& 0x7FFFFF
  let sign := bits >>> 31
  let result :=
    if exp = 0 then
      if mant = 0 then (if sign ≠ 0 then 1 <<< 3 else 1 <<< 4)
      else (if sign ≠ 0 then 1 <<< 2 else 1 <<< 5)
    else if exp = 0xFF then
      if mant = 0 then (if sign ≠ 0 then 1 <<< 0 else 1 <<< 7)
      else (if mant &&& 0x400000 ≠ 0 then 1 <<< 9 else 1 <<< 8)
    else (if sign ≠ 0 then 1 <<< 1 else 1 <<< 6)
  set_xreg m 10 result

/-! ## A reference instance of the primitives

The specification (section 4.2) treats the primitives as an external capability:
round-to-nearest-even add/sub/mul/div, tri-state ordered comparisons and int/float
conversions conformant to IEEE-754 single precision. The definitions below follow that
contract, with the NaN and saturation conventions of compiler-rt where IEEE-754 leaves a
choice. Finite values are exact integers in units of `2^-149`. -/

/-- The default quiet NaN produced by an invalid operation. -/
def IEEE_QNAN : Nat := 0x7FC00000

/-- The pattern of plus infinity. -/
def IEEE_INF : Nat := 0x7F800000

/-- Binary search, most significant step first, for the largest `s < 2^k + acc` (above
`acc`) with `den * 2^(23+s) ≤ num`; from `acc = 0` it yields `0` when `num / den < 2^24`. -/
def ieee_shift (num den : Nat) : Nat → Nat → Nat
  | 0, acc => acc
  | k + 1, acc =>
    if den * 2 ^ (23 + acc + 2 ^ k) ≤ num then ieee_shift num den k (acc + 2 ^ k)
    else ieee_shift num den k acc

/-- Modelled from the spec: round-to-nearest-even of the exact non-negative rational
`num / den` (in units of `2^-149`) to a binary32 magnitude pattern (sign bit clear);
a rounded value beyond the largest finite number becomes infinity. -/
def ieee_round (num den : Nat) : Nat :=
  let s := ieee_shift num den 9 0
  let d := den * 2 ^ s
  let q := num / d
  let r := num % d
  let k := if 2 * r < d then q else if 2 * r = d then q + q % 2 else q + 1
  let pat := s * 8388608 + k
  if pat ≥ IEEE_INF then IEEE_INF else pat

/-- Sign of a product or quotient, as a pattern holding only the sign bit. -/
def ieee_xor_sign (a b : Nat) : Nat := if f32_sign a = f32_sign b then 0 else 0x80000000

/-- Modelled from the spec: IEEE-754 binary32 addition, round to nearest even (the
external `__addsf3`). A NaN operand is returned quieted. -/
def ieee_add (a b : Nat) : Nat :=
  if f32_isNaN a then a ||| 0x400000
  else if f32_isNaN b then b ||| 0x400000
  else if f32_isInf a then (if f32_isInf b && f32_sign a != f32_sign b then IEEE_QNAN else a)
  else if f32_isInf b then b
  else
    let s := f32_val a + f32_val b
    if s = 0 then (if f32_sign a = 1 ∧ f32_sign b = 1 then 0x80000000 else 0)
    else if s < 0 then 0x80000000 + ieee_round s.natAbs 1
    else ieee_round s.natAbs 1

/-- Modelled from the spec: IEEE-754 binary32 subtraction (the external `__subsf3`),
which compiler-rt defines as addition of the negated second operand. -/
def ieee_sub (a b : Nat) : Nat := ieee_add a (f32_neg b)

/-- Modelled from the spec: IEEE-754 binary32 multiplication, round to nearest even (the
external `__mulsf3`). -/
def ieee_mul (a b : Nat) : Nat :=
  if f32_isNaN a then a ||| 0x400000
  else if f32_isNaN b then b ||| 0x400000
  else if f32_isInf a then (if f32_mag b = 0 then IEEE_QNAN else ieee_xor_sign a b + IEEE_INF)
  else if f32_isInf b then (if f32_mag a = 0 then IEEE_QNAN else ieee_xor_sign a b + IEEE_INF)
  else ieee_xor_sign a b + ieee_round (f32_mag a * f32_mag b) (2 ^ 149)

/-- Modelled from the spec: IEEE-754 binary32 division, round to nearest even (the
external `__divsf3`). -/
def ieee_div (a b : Nat) : Nat :=
  if f32_isNaN a then a ||| 0x400000
  else if f32_isNaN b then b ||| 0x400000
  else if f32_isInf a then (if f32_isInf b then IEEE_QNAN else ieee_xor_sign a b + IEEE_INF)
  else if f32_isInf b then ieee_xor_sign a b
  else if f32_mag b = 0 then
    (if f32_mag a = 0 then IEEE_QNAN else ieee_xor_sign a b + IEEE_INF)
  else ieee_xor_sign a b + ieee_round (f32_mag a * 2 ^ 149) (f32_mag b)

/-- Modelled from the spec: the tri-state ordered comparison shared by the external
`__eqsf2`, `__ltsf2` and `__lesf2`: `-1` less, `0` equal, `1` greater, and `1` when
unordered (a NaN operand). -/
def ieee_cmp (a b : Nat) : Int :=
  if f32_isNaN a || f32_isNaN b then 1
  else if f32_val a < f32_val b then -1
  else if f32_val a = f32_val b then 0
  else 1

/-- Modelled from the spec: float to signed 32-bit integer, truncating toward zero and
saturating (the external `__fixsfsi`). -/
def ieee_fixsfsi (a : Nat) : Int :=
  let t : Nat := f32_mag a / 2 ^ 149
  if f32_sign a = 0 then (if t ≥ 2147483648 then 2147483647 else (t : Int))
  else (if t ≥ 2147483648 then -2147483648 else -(t : Int))

/-- Modelled from the spec: float to unsigned 32-bit integer, truncating and saturating
(the external `__fixunssfsi`). -/
def ieee_fixunssfsi (a : Nat) : Nat :=
  let t : Nat := f32_mag a / 2 ^ 149
  if f32_sign a = 0 then (if t ≥ 4294967296 then 4294967295 else t) else 0

/-- Modelled from the spec: unsigned integer to float, round to nearest even (the external
`__floatunsisf`). -/
def ieee_floatunsisf (n : Nat) : Nat := ieee_round (n * 2 ^ 149) 1

/-- Modelled from the spec: signed integer to float, round to nearest even (the external
`__floatsisf`). -/
def ieee_floatsisf (i : Int) : Nat :=
  if i < 0 then 0x80000000 + ieee_round (i.natAbs * 2 ^ 149) 1
  else ieee_round (i.natAbs * 2 ^ 149) 1

/-- The reference primitives. -/
def ieeePrims : Prims where
  __addsf3 := ieee_add
  __subsf3 := ieee_sub
  __mulsf3 := ieee_mul
  __divsf3 := ieee_div
  __eqsf2 := ieee_cmp
  __ltsf2 := ieee_cmp
  __lesf2 := ieee_cmp
  __fixsfsi := ieee_fixsfsi
  __fixunssfsi := ieee_fixunssfsi
  __floatsisf := ieee_floatsisf
  __floatunsisf := ieee_floatunsisf

/-- Memory with every byte zero, used for concrete evaluations. -/
def mem0 : Mem := fun _ => 0

/-! ## Definitions following the specification's words -/

/-- Index of the float class of a pattern as the specification lists the categories:
0 minus infinity, 1 negative normal, 2 negative subnormal, 3 minus zero, 4 plus zero,
5 positive subnormal, 6 positive normal, 7 plus infinity, 8 signaling NaN (fraction bit
22 clear), 9 quiet NaN (fraction bit 22 set). -/
def fclass_spec (x : Nat) : Nat :=
  if f32_isNaN x then (if x.testBit 22 then 9 else 8)
  else if f32_isInf x then (if f32_sign x = 1 then 0 else 7)
  else if f32_exp x = 0 ∧ f32_mant x = 0 then (if f32_sign x = 1 then 3 else 4)
  else if f32_exp x = 0 then (if f32_sign x = 1 then 2 else 5)
  else (if f32_sign x = 1 then 1 else 6)

/-- The specification's `madd = a*b+c`: the rounded product, then a rounded addition. -/
def spec_fmadd (P : Prims) (a b c : Nat) : Nat := P.__addsf3 (P.__mulsf3 a b) c

/-- The specification's `msub = a*b-c`. -/
def spec_fmsub (P : Prims) (a b c : Nat) : Nat := P.__subsf3 (P.__mulsf3 a b) c

/-- The specification's `nmadd = -(a*b)-c`. -/
def spec_fnmadd (P : Prims) (a b c : Nat) : Nat := P.__subsf3 (f32_neg (P.__mulsf3 a b)) c

/-- The specification's `nmsub = -(a*b)+c`. -/
def spec_fnmsub (P : Prims) (a b c : Nat) : Nat := P.__addsf3 (f32_neg (P.__mulsf3 a b)) c

/-- One Newton step of the specification: `guess = (guess + x/guess) * 0.5`. -/
def spec_sqrt_step (P : Prims) (x guess : Nat) : Nat :=
  P.__mulsf3 (P.__addsf3 guess (P.__divsf3 x guess)) 0x3F000000

/-- The rational number a finite pattern stands for. -/
def f32_toRat (x : Nat) : ℚ := (f32_val x : ℚ) / 2 ^ 149

/-! ## Dispatch table -/

/-- The function symbols of the 24 handlers: what a slot of the table can hold. -/
inductive Handler
  | fadd_s | fsub_s | fmul_s | fdiv_s | fsqrt_s | fmin_s | fmax_s
  | fmadd_s | fmsub_s | fnmadd_s | fnmsub_s
  | fsgnj_s | fsgnjn_s | fsgnjx_s
  | feq_s | flt_s | fle_s
  | fcvt_w_s | fcvt_wu_s | fcvt_s_w | fcvt_s_wu
  | fmv_x_w | fmv_w_x | fclass_s
  deriving DecidableEq

/-- A handler as declared: with three, four or five `uint32_t` parameters. -/
inductive HandlerFn
  | args3 (f : Mem → Nat → Nat → Nat → Mem)
  | args4 (f : Mem → Nat → Nat → Nat → Nat → Mem)
  | args5 (f : Mem → Nat → Nat → Nat → Nat → Nat → Mem)

/-- The function each symbol names. -/
def Handler.fn (P : Prims) : Handler → HandlerFn
  | .fadd_s => .args4 (_openvm_fadd_s P)
  | .fsub_s => .args4 (_openvm_fsub_s P)
  | .fmul_s => .args4 (_openvm_fmul_s P)
  | .fdiv_s => .args4 (_openvm_fdiv_s P)
  | .fsqrt_s => .args4 (_openvm_fsqrt_s P)
  | .fmin_s => .args4 (_openvm_fmin_s P)
  | .fmax_s => .args4 (_openvm_fmax_s P)
  | .fmadd_s => .args5 (_openvm_fmadd_s P)
  | .fmsub_s => .args5 (_openvm_fmsub_s P)
  | .fnmadd_s => .args5 (_openvm_fnmadd_s P)
  | .fnmsub_s => .args5 (_openvm_fnmsub_s P)
  | .fsgnj_s => .args4 _openvm_fsgnj_s
  | .fsgnjn_s => .args4 _openvm_fsgnjn_s
  | .fsgnjx_s => .args4 _openvm_fsgnjx_s
  | .feq_s => .args3 (_openvm_feq_s P)
  | .flt_s => .args3 (_openvm_flt_s P)
  | .fle_s => .args3 (_openvm_fle_s P)
  | .fcvt_w_s => .args3 (_openvm_fcvt_w_s P)
  | .fcvt_wu_s => .args3 (_openvm_fcvt_wu_s P)
  | .fcvt_s_w => .args4 (_openvm_fcvt_s_w P)
  | .fcvt_s_wu => .args4 (_openvm_fcvt_s_wu P)
  | .fmv_x_w => .args3 _openvm_fmv_x_w
  | .fmv_w_x => .args4 _openvm_fmv_w_x
  | .fclass_s => .args3 _openvm_fclass_s

/-- The designated initializers of `openvm_float_dispatch_table`, in source order. -/
def dispatch_initializers : List (Nat × Handler) :=
  [(0, .fadd_s), (1, .fsub_s), (2, .fmul_s), (3, .fdiv_s), (4, .fsqrt_s), (5, .fmin_s),
   (6, .fmax_s), (7, .fmadd_s), (8, .fmsub_s), (9, .fnmadd_s), (10, .fnmsub_s),
   (11, .fsgnj_s), (12, .fsgnjn_s), (13, .fsgnjx_s), (14, .feq_s), (15, .flt_s),
   (16, .fle_s), (17, .fcvt_w_s), (18, .fcvt_wu_s), (19, .fcvt_s_w), (20, .fcvt_s_wu),
   (21, .fmv_x_w), (22, .fmv_w_x), (23, .fclass_s)]

/-- The array `openvm_float_dispatch_table[24]`: slot `i` holds the handler of the last
initializer designating `i`, and is null (`none`) when no initializer designates it. -/
def openvm_float_dispatch_table : List (Option Handler) :=
  (List.range 24).map (fun i => dispatch_initializers.reverse.lookup i)

/-! ## Exception flags (`riscof/plugins/openvm/env/softfloat_fcsr.c`) -/

/-- The function `softfloat_raiseFlags`: the new value of the global
`softfloat_exceptionFlags` after `softfloat_exceptionFlags |= flags`. An or of two values
of the flag type stays within the type, whatever its width. -/
def softfloat_raiseFlags (softfloat_exceptionFlags flags : Nat) : Nat :=
  softfloat_exceptionFlags ||| flags

/-- The flag variable after the calls `softfloat_raiseFlags(f)` for `f` in `fs`, in order,
starting from the value `f0`. -/
def raise_sequence (f0 : Nat) (fs : List Nat) : Nat := fs.foldl softfloat_raiseFlags f0

/-! ## Frame conditions in the specification's words -/

/-- Every float register other than `rd` holds in `m2` the pattern it held in `m1`, and
every integer register holds the value it held. -/
def writes_only_freg (m1 m2 : Mem) (rd : Nat) : Prop :=
  (∀ i, i < 32 → i ≠ rd → freg_bits m2 i = freg_bits m1 i)
  ∧ (∀ j, j < 32 → xreg m2 j = xreg m1 j)

/-- Every integer register other than `r` holds in `m2` the value it held in `m1`, and
every float register holds the pattern it held. -/
def writes_only_xreg (m1 m2 : Mem) (r : Nat) : Prop :=
  (∀ j, j < 32 → j ≠ r → xreg m2 j = xreg m1 j)
  ∧ (∀ i, i < 32 → freg_bits m2 i = freg_bits m1 i)

/-- The 4-byte cells at addresses `a` and `b` share no byte. -/
def cells_disjoint (a b : Nat) : Prop := a + 4 ≤ b ∨ b + 4 ≤ a

/-- Each float register listed in `srcs` other than `rd` holds in `m2` the pattern it held
in `m1`. -/
def float_sources_kept_except (m1 m2 : Mem) (srcs : List Nat) (rd : Nat) : Prop :=
  ∀ rs, rs ∈ srcs → rs ≠ rd → freg_bits m2 rs = freg_bits m1 rs

/-- Each float register listed in `srcs` holds in `m2` the pattern it held in `m1`. -/
def float_sources_kept (m1 m2 : Mem) (srcs : List Nat) : Prop :=
  ∀ rs, rs ∈ srcs → freg_bits m2 rs = freg_bits m1 rs

/-! ## Memory lemmas -/

theorem load32_lt (m : Mem) (a : Nat) : load32 m a < 4294967296 := by
  unfold load32; omega

theorem load32_store32_same (m : Mem) (a v : Nat) :
    load32 (store32 m a v) a = v % 4294967296 := by
  simp only [load32, store32]
  have h1 : ¬ (a + 1 = a) := by omega
  have h2 : ¬ (a + 2 = a) := by omega
  have h3 : ¬ (a + 3 = a) := by omega
  have h4 : ¬ (a + 2 = a + 1) := by omega
  have h5 : ¬ (a + 3 = a + 1) := by omega
  have h6 : ¬ (a + 3 = a + 2) := by omega
  simp only [h1, h2, h3, h4, h5, h6, if_true, if_false]
  omega

theorem load32_store32_of_lt (m : Mem) (a v : Nat) (h : v < 4294967296) :
    load32 (store32 m a v) a = v := by
  rw [load32_store32_same]; omega

theorem store32_apply_disjoint (m : Mem) (a v x : Nat) (h : x < a ∨ a + 4 ≤ x) :
    store32 m a v x = m x := by
  simp only [store32]
  have h0 : ¬ (x = a) := by omega
  have h1 : ¬ (x = a + 1) := by omega
  have h2 : ¬ (x = a + 2) := by omega
  have h3 : ¬ (x = a + 3) := by omega
  simp only [h0, h1, h2, h3, if_false]

theorem load32_store32_disjoint (m : Mem) (a b v : Nat) (h : b + 4 ≤ a ∨ a + 4 ≤ b) :
    load32 (store32 m a v) b = load32 m b := by
  simp only [load32]
  rw [store32_apply_disjoint m a v b (by omega), store32_apply_disjoint m a v (b + 1) (by omega),
    store32_apply_disjoint m a v (b + 2) (by omega), store32_apply_disjoint m a v (b + 3) (by omega)]

theorem freg_ptr_of_lt (n : Nat) (h : n < 32) : freg_ptr n = 3221225472 + n * 4 := by
  simp only [freg_ptr, FLOAT_REG_BASE, WORD]; omega

theorem xreg_ptr_of_lt (n : Nat) (h : n < 32) : xreg_ptr n = 2684354560 + n * 16 := by
  simp only [xreg_ptr, XREG_BASE, WORD]; omega

/-! ## Bit-field lemmas -/

theorem and_0xFF (x : Nat) : x &&& 0xFF = x % 256 := Nat.and_pow_two_sub_one_eq_mod x 8

theorem and_0x7FFFFF (x : Nat) : x &&& 0x7FFFFF = x % 8388608 :=
  Nat.and_pow_two_sub_one_eq_mod x 23

theorem and_0x7FFFFFFF (x : Nat) : x &&& 0x7FFFFFFF = x % 2147483648 :=
  Nat.and_pow_two_sub_one_eq_mod x 31

theorem and_0x1 (x : Nat) : x &&& 1 = x % 2 := Nat.and_pow_two_sub_one_eq_mod x 1

theorem and_two_pow_eq (x i : Nat) : x &&& 2 ^ i = (x / 2 ^ i % 2) * 2 ^ i := by
  rw [Nat.and_two_pow, Nat.toNat_testBit]

theorem and_0x400000 (x : Nat) : x &&& 0x400000 = (x / 4194304 % 2) * 4194304 :=
  and_two_pow_eq x 22

theorem and_0x80000000 (x : Nat) : x &&& 0x80000000 = (x / 2147483648 % 2) * 2147483648 :=
  and_two_pow_eq x 31

theorem shr_23 (x : Nat) : x >>> 23 = x / 8388608 := Nat.shiftRight_eq_div_pow x 23

theorem shr_31 (x : Nat) : x >>> 31 = x / 2147483648 := Nat.shiftRight_eq_div_pow x 31

/-! ## Sanity of the reference primitives -/

theorem ieee_cmp_tri_state (a b : Nat) (ha : f32_isNaN a = false) (hb : f32_isNaN b = false) :
    (ieee_cmp a b < 0 ↔ f32_val a < f32_val b)
    ∧ (ieee_cmp a b = 0 ↔ f32_val a = f32_val b)
    ∧ (0 < ieee_cmp a b ↔ f32_val b < f32_val a) := by
  simp only [ieee_cmp, ha, hb, Bool.or_self, Bool.false_eq_true, if_false]
  split_ifs with h1 h2
  · refine ⟨⟨fun _ => h1, fun _ => by decide⟩, ⟨fun h => absurd h (by decide), fun h => ?_⟩,
      ⟨fun h => absurd h (by decide), fun h => ?_⟩⟩ <;> omega
  · refine ⟨⟨fun h => absurd h (by decide), fun h => ?_⟩, ⟨fun _ => h2, fun _ => rfl⟩,
      ⟨fun h => absurd h (by decide), fun h => ?_⟩⟩ <;> omega
  · refine ⟨⟨fun h => absurd h (by decide), fun h => ?_⟩, ⟨fun h => absurd h (by decide), fun h => ?_⟩,
      ⟨fun _ => ?_, fun _ => by decide⟩⟩ <;> omega

theorem ieee_sub_eq_add_neg (x y : Nat) : ieee_sub x y = ieee_add x (f32_neg y) := rfl

theorem ieee_examples :
    ieee_add 0x3F800000 0x3F800000 = 0x40000000
    ∧ ieee_add 0x3F800000 0x33800000 = 0x3F800000
    ∧ ieee_add 0x3F800001 0x33800000 = 0x3F800002
    ∧ ieee_add 0x7F7FFFFF 0x73000000 = 0x7F800000
    ∧ ieee_add 0x7F800000 0xFF800000 = 0x7FC00000
    ∧ ieee_mul 0x00000003 0x3F000000 = 0x00000002
    ∧ ieee_mul 0x40400000 0xC0A00000 = 0xC1700000
    ∧ ieee_div 0x3F800000 0x40400000 = 0x3EAAAAAB
    ∧ ieee_div 0x3F800000 0x80000000 = 0xFF800000
    ∧ ieee_div 0x00000000 0x00000000 = 0x7FC00000 := by
  decide

/-! ## Classification -/

theorem fclass_result_eq (bits : Nat) (hb : bits < 4294967296) :
    (if (bits >>> 23) &&& 0xFF = 0 then
      if bits &&& 0x7FFFFF = 0 then (if bits >>> 31 ≠ 0 then 1 <<< 3 else 1 <<< 4)
      else (if bits >>> 31 ≠ 0 then 1 <<< 2 else 1 <<< 5)
    else if (bits >>> 23) &&& 0xFF = 0xFF then
      if bits &&& 0x7FFFFF = 0 then (if bits >>> 31 ≠ 0 then 1 <<< 0 else 1 <<< 7)
      else (if (bits &&& 0x7FFFFF) &&& 0x400000 ≠ 0 then 1 <<< 9 else 1 <<< 8)
    else (if bits >>> 31 ≠ 0 then 1 <<< 1 else 1 <<< 6)) = 2 ^ fclass_spec bits := by
  simp only [fclass_spec, f32_isNaN, f32_isInf, f32_sign, f32_exp, f32_mant, and_0xFF,
    and_0x7FFFFF, and_0x400000, and_0x1, shr_23, shr_31, Nat.testBit_to_div_mod,
    Bool.and_eq_true, beq_iff_eq, bne_iff_ne, decide_eq_true_eq, Nat.shiftLeft_eq]
  split_ifs <;> first | rfl | omega

theorem fclass_spec_le (x : Nat) : fclass_spec x ≤ 9 := by
  unfold fclass_spec
  split_ifs <;> omega

theorem fclass_value (m : Mem) (rs1 rs2 rm : Nat) :
    xreg (_openvm_fclass_s m rs1 rs2 rm) 10 = 2 ^ fclass_spec (freg_bits m rs1) := by
  have hb : freg_bits m rs1 < 4294967296 := load32_lt m _
  simp only [_openvm_fclass_s, xreg, set_xreg]
  rw [load32_store32_same, fclass_result_eq _ hb]
  apply Nat.mod_eq_of_lt
  calc 2 ^ fclass_spec (freg_bits m rs1) ≤ 2 ^ 9 :=
        Nat.pow_le_pow_right (by decide) (fclass_spec_le _)
    _ < 4294967296 := by decide

/-- C1: for every pattern held in float register `rs1`, `_openvm_fclass_s` leaves in integer
register 10 the value `1 <<< k` for exactly one `k`, that `k` is at most 9 and is the
class index the specification assigns to the pattern's sign, exponent and fraction
fields; the five patterns named by the specification fall in classes 4, 3, 7, 9 and 8. -/
theorem fclass_one_hot (m : Mem) (rs1 rs2 rm : Nat) :
    xreg (_openvm_fclass_s m rs1 rs2 rm) 10 = 1 <<< fclass_spec (freg_bits m rs1)
    ∧ fclass_spec (freg_bits m rs1) ≤ 9
    ∧ (∃! k, xreg (_openvm_fclass_s m rs1 rs2 rm) 10 = 1 <<< k)
    ∧ xreg (_openvm_fclass_s (set_freg_bits m rs1 0x00000000) rs1 rs2 rm) 10 = 1 <<< 4
    ∧ xreg (_openvm_fclass_s (set_freg_bits m rs1 0x80000000) rs1 rs2 rm) 10 = 1 <<< 3
    ∧ xreg (_openvm_fclass_s (set_freg_bits m rs1 0x7F800000) rs1 rs2 rm) 10 = 1 <<< 7
    ∧ xreg (_openvm_fclass_s (set_freg_bits m rs1 0x7FC00000) rs1 rs2 rm) 10 = 1 <<< 9
    ∧ xreg (_openvm_fclass_s (set_freg_bits m rs1 0x7F800001) rs1 rs2 rm) 10 = 1 <<< 8 := by
  have hset : ∀ v, v < 4294967296 → freg_bits (set_freg_bits m rs1 v) rs1 = v := fun v hv =>
    load32_store32_of_lt m _ v hv
  refine ⟨?_, fclass_spec_le _, ?_, ?_, ?_, ?_, ?_, ?_⟩
  · rw [fclass_value, Nat.shiftLeft_eq, Nat.one_mul]
  · refine ⟨fclass_spec (freg_bits m rs1), ?_, ?_⟩
    · show _ = _
      rw [fclass_value, Nat.shiftLeft_eq, Nat.one_mul]
    · intro j hj
      rw [fclass_value, Nat.shiftLeft_eq, Nat.one_mul] at hj
      exact (Nat.pow_right_injective (le_refl 2) hj).symm
  all_goals
    rw [fclass_value, hset _ (by decide)]
    decide

/-! ## Sign injection and moves -/

theorem or_sign_eq_add (x s : Nat) (hx : x < 2147483648) :
    x ||| (s * 2147483648) = 2147483648 * s + x := by
  have h := Nat.mul_add_lt_is_or (i := 31) (b := x) hx s
  rw [Nat.or_comm, Nat.mul_comm s]
  exact h.symm

theorem fsgnj_value (m : Mem) (rs1 rs2 rd rm : Nat) :
    freg_bits (_openvm_fsgnj_s m rs1 rs2 rd rm) rd
      = 2147483648 * (freg_bits m rs2 / 2147483648) + freg_bits m rs1 % 2147483648 := by
  have ha : freg_bits m rs1 < 4294967296 := load32_lt m _
  have hb : freg_bits m rs2 < 4294967296 := load32_lt m _
  simp only [_openvm_fsgnj_s, set_freg_bits]
  rw [show freg_bits (store32 m (freg_ptr rd) _) rd = load32 (store32 m (freg_ptr rd) _) (freg_ptr rd)
    from rfl, load32_store32_same, and_0x7FFFFFFF, and_0x80000000,
    or_sign_eq_add _ _ (Nat.mod_lt _ (by decide))]
  omega

/-- C2: for all patterns `a` (float register `rs1`) and `b` (float register `rs2`),
`_openvm_fsgnj_s` leaves in float register `rd` a pattern whose low 31 bits are those of
`a` and whose bit 31 is bit 31 of `b`; no bit above bit 31 exists. -/
theorem fsgnj_magnitude_and_sign (m : Mem) (rs1 rs2 rd rm : Nat) :
    freg_bits (_openvm_fsgnj_s m rs1 rs2 rd rm) rd % 2 ^ 31 = freg_bits m rs1 % 2 ^ 31
    ∧ freg_bits (_openvm_fsgnj_s m rs1 rs2 rd rm) rd / 2 ^ 31 = freg_bits m rs2 / 2 ^ 31
    ∧ (∀ i, i < 31 → (freg_bits (_openvm_fsgnj_s m rs1 rs2 rd rm) rd).testBit i
          = (freg_bits m rs1).testBit i)
    ∧ (freg_bits (_openvm_fsgnj_s m rs1 rs2 rd rm) rd).testBit 31
          = (freg_bits m rs2).testBit 31 := by
  have hv := fsgnj_value m rs1 rs2 rd rm
  have hmod : freg_bits (_openvm_fsgnj_s m rs1 rs2 rd rm) rd % 2 ^ 31
      = freg_bits m rs1 % 2 ^ 31 := by
    rw [hv]; norm_num; omega
  have hdiv : freg_bits (_openvm_fsgnj_s m rs1 rs2 rd rm) rd / 2 ^ 31
      = freg_bits m rs2 / 2 ^ 31 := by
    rw [hv]; norm_num; omega
  refine ⟨hmod, hdiv, ?_, ?_⟩
  · intro i hi
    have h1 := Nat.testBit_mod_two_pow (freg_bits (_openvm_fsgnj_s m rs1 rs2 rd rm) rd) 31 i
    have h2 := Nat.testBit_mod_two_pow (freg_bits m rs1) 31 i
    rw [hmod, h2] at h1
    simpa [hi] using h1.symm
  · rw [Nat.testBit_to_div_mod, Nat.testBit_to_div_mod, hdiv]

/-- C3: whatever value integer register `rs1` holds, `_openvm_fmv_w_x` into float register
`rd` followed by `_openvm_fmv_x_w` from `rd` leaves exactly that value in integer register
10 and as the raw pattern of float register `rd`. -/
theorem fmv_round_trip (m : Mem) (rs1 rs2 rd rm rs2b rmb : Nat) (hrd : rd < 32) :
    xreg (_openvm_fmv_x_w (_openvm_fmv_w_x m rs1 rs2 rd rm) rd rs2b rmb) 10 = xreg m rs1
    ∧ freg_bits (_openvm_fmv_x_w (_openvm_fmv_w_x m rs1 rs2 rd rm) rd rs2b rmb) rd
        = xreg m rs1 := by
  have hv : xreg m rs1 < 4294967296 := load32_lt m _
  have hf : freg_bits (_openvm_fmv_w_x m rs1 rs2 rd rm) rd = xreg m rs1 :=
    load32_store32_of_lt m _ _ hv
  constructor
  · show load32 (store32 _ (xreg_ptr 10) _) (xreg_ptr 10) = _
    rw [load32_store32_same, hf]
    exact Nat.mod_eq_of_lt hv
  · show load32 (store32 _ (xreg_ptr 10) _) (freg_ptr rd) = _
    rw [load32_store32_disjoint _ _ _ _ (by
      rw [freg_ptr_of_lt rd hrd, xreg_ptr_of_lt 10 (by decide)]; omega)]
    exact hf

/-- Witness for C3: integer register 7 holds a signaling-NaN pattern with a payload. -/
theorem fmv_round_trip_witness :
    xreg (_openvm_fmv_x_w (_openvm_fmv_w_x (set_xreg mem0 7 0xFFA12345) 7 0 3 0) 3 0 0) 10
        = xreg (set_xreg mem0 7 0xFFA12345) 7
    ∧ freg_bits (_openvm_fmv_x_w (_openvm_fmv_w_x (set_xreg mem0 7 0xFFA12345) 7 0 3 0) 3 0 0) 3
        = xreg (set_xreg mem0 7 0xFFA12345) 7
    ∧ xreg (set_xreg mem0 7 0xFFA12345) 7 = 0xFFA12345 :=
  ⟨(fmv_round_trip (set_xreg mem0 7 0xFFA12345) 7 0 3 0 0 0 (by decide)).1,
   (fmv_round_trip (set_xreg mem0 7 0xFFA12345) 7 0 3 0 0 0 (by decide)).2,
   by decide⟩

/-! ## Minimum and maximum -/

theorem f32_ne_self (a : Nat) : f32_ne a a = f32_isNaN a := by
  unfold f32_ne f32_eq
  cases f32_isNaN a <;> simp

theorem freg_bits_write (m : Mem) (rd v : Nat) :
    freg_bits (write_freg_f32 m rd v) rd = v % 4294967296 :=
  load32_store32_same m _ v

theorem read_freg_f32_lt (m : Mem) (r : Nat) : read_freg_f32 m r < 4294967296 :=
  load32_lt m _

theorem write_read_freg (m : Mem) (rd r : Nat) :
    freg_bits (write_freg_f32 m rd (read_freg_f32 m r)) rd = read_freg_f32 m r := by
  rw [freg_bits_write]
  exact Nat.mod_eq_of_lt (read_freg_f32_lt m r)

/-- C4: when both operands are NaN, whatever their signs and payloads, `_openvm_fmin_s` and
`_openvm_fmax_s` each leave the pattern `0x7FC00000` in float register `rd`. -/
theorem fmin_fmax_both_nan (P : Prims) (m : Mem) (rs1 rs2 rd rm : Nat)
    (ha : f32_isNaN (read_freg_f32 m rs1) = true)
    (hb : f32_isNaN (read_freg_f32 m rs2) = true) :
    freg_bits (_openvm_fmin_s P m rs1 rs2 rd rm) rd = 0x7FC00000
    ∧ freg_bits (_openvm_fmax_s P m rs1 rs2 rd rm) rd = 0x7FC00000 := by
  simp only [_openvm_fmin_s, _openvm_fmax_s, f32_ne_self, ha, hb, Bool.and_self, if_true,
    freg_bits_write, F32_NAN_0_DIV_0]
  decide

/-- Witness for C4: a negative signaling NaN and a positive quiet NaN with distinct
payloads, under the reference primitives. -/
theorem fmin_fmax_both_nan_witness :
    f32_isNaN (read_freg_f32 (set_freg_bits (set_freg_bits mem0 1 0xFF812345) 2 0x7FC00ABC) 1)
      = true
    ∧ f32_isNaN (read_freg_f32 (set_freg_bits (set_freg_bits mem0 1 0xFF812345) 2 0x7FC00ABC) 2)
      = true
    ∧ freg_bits (_openvm_fmin_s ieeePrims
        (set_freg_bits (set_freg_bits mem0 1 0xFF812345) 2 0x7FC00ABC) 1 2 3 0) 3 = 0x7FC00000
    ∧ freg_bits (_openvm_fmax_s ieeePrims
        (set_freg_bits (set_freg_bits mem0 1 0xFF812345) 2 0x7FC00ABC) 1 2 3 0) 3 = 0x7FC00000 :=
  ⟨by decide, by decide,
    fmin_fmax_both_nan ieeePrims (set_freg_bits (set_freg_bits mem0 1 0xFF812345) 2 0x7FC00ABC)
      1 2 3 0 (by decide) (by decide)⟩

/-- C5: when exactly one operand is a NaN, `_openvm_fmin_s` and `_openvm_fmax_s` each leave
in float register `rd` the pattern of the other operand, unchanged, for every choice of
the primitives. -/
theorem fmin_fmax_one_nan (P : Prims) (m : Mem) (rs1 rs2 rd rm : Nat)
    (h : f32_isNaN (read_freg_f32 m rs1) ≠ f32_isNaN (read_freg_f32 m rs2)) :
    freg_bits (_openvm_fmin_s P m rs1 rs2 rd rm) rd
      = (if f32_isNaN (read_freg_f32 m rs1) then read_freg_f32 m rs2 else read_freg_f32 m rs1)
    ∧ freg_bits (_openvm_fmax_s P m rs1 rs2 rd rm) rd
      = (if f32_isNaN (read_freg_f32 m rs1) then read_freg_f32 m rs2 else read_freg_f32 m rs1) := by
  simp only [_openvm_fmin_s, _openvm_fmax_s, f32_ne_self]
  cases ha : f32_isNaN (read_freg_f32 m rs1) <;> cases hb : f32_isNaN (read_freg_f32 m rs2)
  · rw [ha, hb] at h; exact absurd rfl h
  · simp [write_read_freg]
  · simp [write_read_freg]
  · rw [ha, hb] at h; exact absurd rfl h

/-- Witness for C5: a NaN in `rs1` against minus zero in `rs2`. -/
theorem fmin_fmax_one_nan_witness :
    freg_bits (_openvm_fmin_s ieeePrims
        (set_freg_bits (set_freg_bits mem0 1 0x7FC00000) 2 0x80000000) 1 2 3 0) 3 = 0x80000000
    ∧ freg_bits (_openvm_fmax_s ieeePrims
        (set_freg_bits (set_freg_bits mem0 1 0x7FC00000) 2 0x80000000) 1 2 3 0) 3 = 0x80000000 := by
  have h := fmin_fmax_one_nan ieeePrims
    (set_freg_bits (set_freg_bits mem0 1 0x7FC00000) 2 0x80000000) 1 2 3 0 (by decide)
  have e : (if f32_isNaN (read_freg_f32
      (set_freg_bits (set_freg_bits mem0 1 0x7FC00000) 2 0x80000000) 1) = true
      then read_freg_f32 (set_freg_bits (set_freg_bits mem0 1 0x7FC00000) 2 0x80000000) 2
      else read_freg_f32 (set_freg_bits (set_freg_bits mem0 1 0x7FC00000) 2 0x80000000) 1)
      = 0x80000000 := by decide
  rw [e] at h
  exact h

theorem fmin_value_of_not_nan (P : Prims) (m : Mem) (rs1 rs2 rd rm : Nat)
    (ha : f32_isNaN (read_freg_f32 m rs1) = false)
    (hb : f32_isNaN (read_freg_f32 m rs2) = false) :
    freg_bits (_openvm_fmin_s P m rs1 rs2 rd rm) rd
      = (if P.__ltsf2 (read_freg_f32 m rs1) (read_freg_f32 m rs2) < 0
          then read_freg_f32 m rs1 else read_freg_f32 m rs2) := by
  simp only [_openvm_fmin_s, f32_ne_self, ha, hb, Bool.and_self, Bool.false_eq_true, if_false]
  rw [freg_bits_write]
  split_ifs <;> exact Nat.mod_eq_of_lt (read_freg_f32_lt _ _)

theorem fmax_value_of_not_nan (P : Prims) (m : Mem) (rs1 rs2 rd rm : Nat)
    (ha : f32_isNaN (read_freg_f32 m rs1) = false)
    (hb : f32_isNaN (read_freg_f32 m rs2) = false) :
    freg_bits (_openvm_fmax_s P m rs1 rs2 rd rm) rd
      = (if P.__ltsf2 (read_freg_f32 m rs1) (read_freg_f32 m rs2) > 0
          then read_freg_f32 m rs1 else read_freg_f32 m rs2) := by
  simp only [_openvm_fmax_s, f32_ne_self, ha, hb, Bool.and_self, Bool.false_eq_true, if_false]
  rw [freg_bits_write]
  split_ifs <;> exact Nat.mod_eq_of_lt (read_freg_f32_lt _ _)

/-- C6: for non-NaN operands `a` (in `rs1`) and `b` (in `rs2`), when the less-than primitive
is tri-state on them (negative when `a < b`, zero when `a = b`, positive when `a > b`),
`_openvm_fmin_s` writes `a` when `a < b` and `b` otherwise, `_openvm_fmax_s` writes `a`
when `a > b` and `b` otherwise; the value written by fmin is at most both operands and
the value written by fmax is at least both. -/
theorem fmin_fmax_select (P : Prims) (m : Mem) (rs1 rs2 rd rm : Nat)
    (ha : f32_isNaN (read_freg_f32 m rs1) = false)
    (hb : f32_isNaN (read_freg_f32 m rs2) = false)
    (hlt : f32_val (read_freg_f32 m rs1) < f32_val (read_freg_f32 m rs2) →
      P.__ltsf2 (read_freg_f32 m rs1) (read_freg_f32 m rs2) < 0)
    (heq : f32_val (read_freg_f32 m rs1) = f32_val (read_freg_f32 m rs2) →
      P.__ltsf2 (read_freg_f32 m rs1) (read_freg_f32 m rs2) = 0)
    (hgt : f32_val (read_freg_f32 m rs2) < f32_val (read_freg_f32 m rs1) →
      0 < P.__ltsf2 (read_freg_f32 m rs1) (read_freg_f32 m rs2)) :
    freg_bits (_openvm_fmin_s P m rs1 rs2 rd rm) rd
      = (if f32_val (read_freg_f32 m rs1) < f32_val (read_freg_f32 m rs2)
          then read_freg_f32 m rs1 else read_freg_f32 m rs2)
    ∧ freg_bits (_openvm_fmax_s P m rs1 rs2 rd rm) rd
      = (if f32_val (read_freg_f32 m rs2) < f32_val (read_freg_f32 m rs1)
          then read_freg_f32 m rs1 else read_freg_f32 m rs2)
    ∧ f32_val (freg_bits (_openvm_fmin_s P m rs1 rs2 rd rm) rd) ≤ f32_val (read_freg_f32 m rs1)
    ∧ f32_val (freg_bits (_openvm_fmin_s P m rs1 rs2 rd rm) rd) ≤ f32_val (read_freg_f32 m rs2)
    ∧ f32_val (read_freg_f32 m rs1) ≤ f32_val (freg_bits (_openvm_fmax_s P m rs1 rs2 rd rm) rd)
    ∧ f32_val (read_freg_f32 m rs2) ≤ f32_val (freg_bits (_openvm_fmax_s P m rs1 rs2 rd rm) rd) := by
  have ilt : P.__ltsf2 (read_freg_f32 m rs1) (read_freg_f32 m rs2) < 0
      ↔ f32_val (read_freg_f32 m rs1) < f32_val (read_freg_f32 m rs2) := by
    constructor
    · intro h
      by_contra hn
      rcases lt_or_eq_of_le (not_lt.mp hn) with h1 | h1
      · have := hgt h1; omega
      · have := heq h1.symm; omega
    · exact hlt
  have igt : 0 < P.__ltsf2 (read_freg_f32 m rs1) (read_freg_f32 m rs2)
      ↔ f32_val (read_freg_f32 m rs2) < f32_val (read_freg_f32 m rs1) := by
    constructor
    · intro h
      by_contra hn
      rcases lt_or_eq_of_le (not_lt.mp hn) with h1 | h1
      · have := hlt h1; omega
      · have := heq h1; omega
    · exact hgt
  rw [fmin_value_of_not_nan P m rs1 rs2 rd rm ha hb, fmax_value_of_not_nan P m rs1 rs2 rd rm ha hb]
  simp only [gt_iff_lt, ilt, igt]
  refine ⟨trivial, trivial, ?_, ?_, ?_, ?_⟩ <;> split_ifs <;> omega

/-- Witness for C6: `a = -1.5` and `b = 2.0` under the reference primitives. -/
theorem fmin_fmax_select_witness :
    freg_bits (_openvm_fmin_s ieeePrims
        (set_freg_bits (set_freg_bits mem0 1 0xBFC00000) 2 0x40000000) 1 2 3 0) 3 = 0xBFC00000
    ∧ freg_bits (_openvm_fmax_s ieeePrims
        (set_freg_bits (set_freg_bits mem0 1 0xBFC00000) 2 0x40000000) 1 2 3 0) 3 = 0x40000000 := by
  have h := fmin_fmax_select ieeePrims
    (set_freg_bits (set_freg_bits mem0 1 0xBFC00000) 2 0x40000000) 1 2 3 0
    (by decide) (by decide) (by decide) (by decide) (by decide)
  have e1 : (if f32_val (read_freg_f32
        (set_freg_bits (set_freg_bits mem0 1 0xBFC00000) 2 0x40000000) 1)
      < f32_val (read_freg_f32 (set_freg_bits (set_freg_bits mem0 1 0xBFC00000) 2 0x40000000) 2)
      then read_freg_f32 (set_freg_bits (set_freg_bits mem0 1 0xBFC00000) 2 0x40000000) 1
      else read_freg_f32 (set_freg_bits (set_freg_bits mem0 1 0xBFC00000) 2 0x40000000) 2)
      = 0xBFC00000 := by decide
  have e2 : (if f32_val (read_freg_f32
        (set_freg_bits (set_freg_bits mem0 1 0xBFC00000) 2 0x40000000) 2)
      < f32_val (read_freg_f32 (set_freg_bits (set_freg_bits mem0 1 0xBFC00000) 2 0x40000000) 1)
      then read_freg_f32 (set_freg_bits (set_freg_bits mem0 1 0xBFC00000) 2 0x40000000) 1
      else read_freg_f32 (set_freg_bits (set_freg_bits mem0 1 0xBFC00000) 2 0x40000000) 2)
      = 0x40000000 := by decide
  exact ⟨h.1.trans e1, h.2.1.trans e2⟩

/-! ## Comparisons -/

theorem xreg_set_xreg (m : Mem) (n v : Nat) (hv : v < 4294967296) :
    xreg (set_xreg m n v) n = v :=
  load32_store32_of_lt m _ v hv

/-- C7: `_openvm_feq_s`, `_openvm_flt_s` and `_openvm_fle_s` each leave in integer register
10 the value 1 when the primitive reports equal (zero), less (negative), less-or-equal
(not positive) respectively and 0 otherwise, so always 0 or 1; they change no byte outside
integer register 10 and do not depend on their third argument; and when an operand is a
NaN and the primitives report unordered (not equal, not less, not less-or-equal) all
three leave 0. -/
theorem compare_handlers (P : Prims) (m : Mem) (rs1 rs2 rm : Nat) :
    xreg (_openvm_feq_s P m rs1 rs2 rm) 10
        = (if P.__eqsf2 (read_freg_f32 m rs1) (read_freg_f32 m rs2) = 0 then 1 else 0)
    ∧ xreg (_openvm_flt_s P m rs1 rs2 rm) 10
        = (if P.__ltsf2 (read_freg_f32 m rs1) (read_freg_f32 m rs2) < 0 then 1 else 0)
    ∧ xreg (_openvm_fle_s P m rs1 rs2 rm) 10
        = (if P.__lesf2 (read_freg_f32 m rs1) (read_freg_f32 m rs2) ≤ 0 then 1 else 0)
    ∧ (xreg (_openvm_feq_s P m rs1 rs2 rm) 10 = 0 ∨ xreg (_openvm_feq_s P m rs1 rs2 rm) 10 = 1)
    ∧ (xreg (_openvm_flt_s P m rs1 rs2 rm) 10 = 0 ∨ xreg (_openvm_flt_s P m rs1 rs2 rm) 10 = 1)
    ∧ (xreg (_openvm_fle_s P m rs1 rs2 rm) 10 = 0 ∨ xreg (_openvm_fle_s P m rs1 rs2 rm) 10 = 1)
    ∧ (∀ x, x < xreg_ptr 10 ∨ xreg_ptr 10 + 4 ≤ x →
        _openvm_feq_s P m rs1 rs2 rm x = m x ∧ _openvm_flt_s P m rs1 rs2 rm x = m x
        ∧ _openvm_fle_s P m rs1 rs2 rm x = m x)
    ∧ (∀ d, _openvm_feq_s P m rs1 rs2 d = _openvm_feq_s P m rs1 rs2 rm
        ∧ _openvm_flt_s P m rs1 rs2 d = _openvm_flt_s P m rs1 rs2 rm
        ∧ _openvm_fle_s P m rs1 rs2 d = _openvm_fle_s P m rs1 rs2 rm)
    ∧ ((f32_isNaN (read_freg_f32 m rs1) = true ∨ f32_isNaN (read_freg_f32 m rs2) = true) →
        P.__eqsf2 (read_freg_f32 m rs1) (read_freg_f32 m rs2) ≠ 0 →
        ¬ P.__ltsf2 (read_freg_f32 m rs1) (read_freg_f32 m rs2) < 0 →
        ¬ P.__lesf2 (read_freg_f32 m rs1) (read_freg_f32 m rs2) ≤ 0 →
        xreg (_openvm_feq_s P m rs1 rs2 rm) 10 = 0 ∧ xreg (_openvm_flt_s P m rs1 rs2 rm) 10 = 0
        ∧ xreg (_openvm_fle_s P m rs1 rs2 rm) 10 = 0) := by
  have e1 : xreg (_openvm_feq_s P m rs1 rs2 rm) 10
      = (if P.__eqsf2 (read_freg_f32 m rs1) (read_freg_f32 m rs2) = 0 then 1 else 0) := by
    simp only [_openvm_feq_s]
    exact xreg_set_xreg m 10 _ (by split_ifs <;> decide)
  have e2 : xreg (_openvm_flt_s P m rs1 rs2 rm) 10
      = (if P.__ltsf2 (read_freg_f32 m rs1) (read_freg_f32 m rs2) < 0 then 1 else 0) := by
    simp only [_openvm_flt_s]
    exact xreg_set_xreg m 10 _ (by split_ifs <;> decide)
  have e3 : xreg (_openvm_fle_s P m rs1 rs2 rm) 10
      = (if P.__lesf2 (read_freg_f32 m rs1) (read_freg_f32 m rs2) ≤ 0 then 1 else 0) := by
    simp only [_openvm_fle_s]
    exact xreg_set_xreg m 10 _ (by split_ifs <;> decide)
  refine ⟨e1, e2, e3, ?_, ?_, ?_, ?_, ?_, ?_⟩
  · rw [e1]; split_ifs <;> simp
  · rw [e2]; split_ifs <;> simp
  · rw [e3]; split_ifs <;> simp
  · intro x hx
    exact ⟨store32_apply_disjoint m _ _ x hx, store32_apply_disjoint m _ _ x hx,
      store32_apply_disjoint m _ _ x hx⟩
  · intro d
    exact ⟨rfl, rfl, rfl⟩
  · intro _ h1 h2 h3
    rw [e1, e2, e3, if_neg h1, if_neg h2, if_neg h3]
    exact ⟨rfl, rfl, rfl⟩

/-- Witness for C7: a quiet NaN against `1.0` under the reference primitives, whose
comparisons return the unordered value 1. -/
theorem compare_handlers_witness :
    xreg (_openvm_feq_s ieeePrims
        (set_freg_bits (set_freg_bits mem0 1 0x7FC00000) 2 0x3F800000) 1 2 0) 10 = 0
    ∧ xreg (_openvm_flt_s ieeePrims
        (set_freg_bits (set_freg_bits mem0 1 0x7FC00000) 2 0x3F800000) 1 2 0) 10 = 0
    ∧ xreg (_openvm_fle_s ieeePrims
        (set_freg_bits (set_freg_bits mem0 1 0x7FC00000) 2 0x3F800000) 1 2 0) 10 = 0 :=
  (compare_handlers ieeePrims
    (set_freg_bits (set_freg_bits mem0 1 0x7FC00000) 2 0x3F800000) 1 2 0).2.2.2.2.2.2.2.2
    (Or.inl (by decide)) (by decide) (by decide) (by decide)

/-! ## Fused multiply-add family -/

theorem f32_neg_neg (x : Nat) : f32_neg (f32_neg x) = x := by
  unfold f32_neg
  rw [Nat.xor_assoc, Nat.xor_self, Nat.xor_zero]

/-- C8: the four fused-multiply-add handlers write to `rd` two separately rounded primitive
operations with the specification's signs: fmadd `add(mul(a,b),c)`, fmsub
`sub(mul(a,b),c)`, fnmadd `sub(neg(mul(a,b)),c)` and, under the primitive contract
`sub(x,y) = add(x, neg y)`, fnmsub `add(neg(mul(a,b)),c)`. -/
theorem fma_family (P : Prims) (m : Mem) (rs1 rs2 rs3 rd rm : Nat)
    (hsub : ∀ x y, P.__subsf3 x y = P.__addsf3 x (f32_neg y)) :
    _openvm_fmadd_s P m rs1 rs2 rs3 rd rm = write_freg_f32 m rd
        (spec_fmadd P (read_freg_f32 m rs1) (read_freg_f32 m rs2) (read_freg_f32 m rs3))
    ∧ _openvm_fmsub_s P m rs1 rs2 rs3 rd rm = write_freg_f32 m rd
        (spec_fmsub P (read_freg_f32 m rs1) (read_freg_f32 m rs2) (read_freg_f32 m rs3))
    ∧ _openvm_fnmadd_s P m rs1 rs2 rs3 rd rm = write_freg_f32 m rd
        (spec_fnmadd P (read_freg_f32 m rs1) (read_freg_f32 m rs2) (read_freg_f32 m rs3))
    ∧ _openvm_fnmsub_s P m rs1 rs2 rs3 rd rm = write_freg_f32 m rd
        (spec_fnmsub P (read_freg_f32 m rs1) (read_freg_f32 m rs2) (read_freg_f32 m rs3))
    ∧ P.__subsf3 (f32_neg (P.__mulsf3 (read_freg_f32 m rs1) (read_freg_f32 m rs2)))
          (f32_neg (read_freg_f32 m rs3))
        = P.__addsf3 (f32_neg (P.__mulsf3 (read_freg_f32 m rs1) (read_freg_f32 m rs2)))
          (read_freg_f32 m rs3)
    ∧ freg_bits (_openvm_fnmsub_s P m rs1 rs2 rs3 rd rm) rd
        = spec_fnmsub P (read_freg_f32 m rs1) (read_freg_f32 m rs2) (read_freg_f32 m rs3)
            % 4294967296 := by
  have key : P.__subsf3 (f32_neg (P.__mulsf3 (read_freg_f32 m rs1) (read_freg_f32 m rs2)))
          (f32_neg (read_freg_f32 m rs3))
        = P.__addsf3 (f32_neg (P.__mulsf3 (read_freg_f32 m rs1) (read_freg_f32 m rs2)))
          (read_freg_f32 m rs3) := by
    rw [hsub, f32_neg_neg]
  have h4 : _openvm_fnmsub_s P m rs1 rs2 rs3 rd rm = write_freg_f32 m rd
        (spec_fnmsub P (read_freg_f32 m rs1) (read_freg_f32 m rs2) (read_freg_f32 m rs3)) := by
    simp only [_openvm_fnmsub_s, spec_fnmsub, key]
  refine ⟨rfl, rfl, rfl, h4, key, ?_⟩
  rw [h4]
  exact load32_store32_same m _ _

/-- Witness for C8: `a = 3`, `b = 5`, `c = 7` under the reference primitives, whose
subtraction is addition of the negated operand; fnmsub leaves `-(3*5)+7 = -8`. -/
theorem fma_family_witness :
    freg_bits (_openvm_fnmsub_s ieeePrims
      (set_freg_bits (set_freg_bits (set_freg_bits mem0 1 0x40400000) 2 0x40A00000) 3 0x40E00000)
      1 2 3 4 0) 4 = 0xC1000000 := by
  have h := (fma_family ieeePrims
    (set_freg_bits (set_freg_bits (set_freg_bits mem0 1 0x40400000) 2 0x40A00000) 3 0x40E00000)
    1 2 3 4 0 (fun _ _ => rfl)).2.2.2.2.2
  rw [h]
  decide

/-! ## Square root -/

theorem f32_isNaN_false_of_le (x : Nat) (h : x ≤ 0xFF800000) (h2 : 0x80000000 ≤ x) :
    f32_isNaN x = false := by
  simp only [f32_isNaN, f32_exp, f32_mant, and_0xFF, and_0x7FFFFF, shr_23,
    Bool.and_eq_false_iff, beq_eq_false_iff_ne, bne_eq_false_iff_eq]
  omega

theorem f32_val_neg_of_range (x : Nat) (h : x ≤ 0xFF800000) (h2 : 0x80000000 < x) :
    f32_val x < 0 := by
  have hs : f32_sign x = 1 := by
    simp only [f32_sign, and_0x1, shr_31]; omega
  have hm : 0 < f32_mag x := by
    unfold f32_mag
    split_ifs with he
    · simp only [f32_exp, f32_mant, and_0xFF, and_0x7FFFFF, shr_23] at he ⊢
      omega
    · exact Nat.mul_pos (by omega) (Nat.two_pow_pos _)
  unfold f32_val
  rw [hs]
  simp only [one_ne_zero, if_false]
  omega

theorem f32_lt_zero_iff (x : Nat) (hx : x < 4294967296) :
    f32_lt x F32_ZERO = true ↔ (0x80000000 < x ∧ x ≤ 0xFF800000) := by
  have hz : f32_val F32_ZERO = 0 := by decide
  have hzn : f32_isNaN F32_ZERO = false := by decide
  constructor
  · intro h
    simp only [f32_lt, hzn, hz, Bool.not_false, Bool.and_true, Bool.and_eq_true,
      Bool.not_eq_true', decide_eq_true_eq] at h
    obtain ⟨hn, hv⟩ := h
    have hs : f32_sign x ≠ 0 := by
      intro h0
      simp only [f32_val, h0, if_true] at hv
      omega
    have hm : f32_mag x ≠ 0 := by
      intro h0
      simp only [f32_val, h0] at hv
      split_ifs at hv <;> simp at hv
    simp only [f32_isNaN, f32_exp, f32_mant, and_0xFF, and_0x7FFFFF, shr_23,
      Bool.and_eq_false_iff, beq_eq_false_iff_ne, bne_eq_false_iff_eq] at hn
    simp only [f32_sign, and_0x1, shr_31] at hs
    have hne : x ≠ 0x80000000 := by
      intro he
      apply hm
      rw [he]
      decide
    omega
  · rintro ⟨h2, h⟩
    have hn : f32_isNaN x = false := f32_isNaN_false_of_le x h (by omega)
    have hv : f32_val x < 0 := f32_val_neg_of_range x h h2
    simp only [f32_lt, hn, hzn, hz, Bool.not_false, Bool.true_and, decide_eq_true_eq]
    exact hv

theorem sqrtf_approx_zero_or_nan (P : Prims) (x : Nat)
    (h : x = 0 ∨ x = 0x80000000 ∨ f32_isNaN x = true) : sqrtf_approx P x = x := by
  unfold sqrtf_approx
  rcases h with h | h | h
  · subst h; rfl
  · subst h; rfl
  · rw [f32_ne_self, h, Bool.or_true, if_pos rfl]

theorem sqrtf_approx_negative (P : Prims) (x : Nat)
    (h : x ≤ 0xFF800000) (h2 : 0x80000000 < x) : sqrtf_approx P x = F32_NAN_0_DIV_0 := by
  have hn : f32_isNaN x = false := f32_isNaN_false_of_le x h (by omega)
  have hv : f32_val x < 0 := f32_val_neg_of_range x h h2
  have hz : f32_val F32_ZERO = 0 := by decide
  have hzn : f32_isNaN F32_ZERO = false := by decide
  have h1 : f32_eq x F32_ZERO = false := by
    simp only [f32_eq, hn, hzn, hz, Bool.not_false, Bool.true_and, beq_eq_false_iff_ne]
    omega
  have h3 : f32_lt x F32_ZERO = true := by
    simp only [f32_lt, hn, hzn, hz, Bool.not_false, Bool.true_and, decide_eq_true_eq]
    exact hv
  unfold sqrtf_approx
  rw [h1, f32_ne_self, hn, h3]
  simp

/-- C9: `sqrtf_approx` returns `+0`, `-0` and every NaN unchanged, and for every negative
input (the patterns above `-0` up to and including minus infinity, which are exactly the
32-bit patterns with `x < 0.0f`) returns the constant `0.0f / 0.0f`, a NaN, which compares
unequal to itself; in each case the result does not depend on the primitives, so no
iteration takes place. In particular `sqrtf_approx(0.0) = 0.0` and `sqrtf_approx(-1.0)`
is a NaN. -/
theorem sqrtf_approx_special (P : Prims) (x : Nat) :
    ((x = 0 ∨ x = 0x80000000 ∨ f32_isNaN x = true) → sqrtf_approx P x = x)
    ∧ ((0x80000000 < x ∧ x ≤ 0xFF800000) →
        sqrtf_approx P x = F32_NAN_0_DIV_0
        ∧ f32_isNaN (sqrtf_approx P x) = true
        ∧ f32_ne (sqrtf_approx P x) (sqrtf_approx P x) = true)
    ∧ ((x = 0 ∨ x = 0x80000000 ∨ f32_isNaN x = true ∨ (0x80000000 < x ∧ x ≤ 0xFF800000)) →
        ∀ Q : Prims, sqrtf_approx Q x = sqrtf_approx P x)
    ∧ (x < 4294967296 → (f32_lt x F32_ZERO = true ↔ (0x80000000 < x ∧ x ≤ 0xFF800000)))
    ∧ sqrtf_approx P 0x00000000 = 0x00000000
    ∧ f32_isNaN (sqrtf_approx P 0xBF800000) = true := by
  refine ⟨sqrtf_approx_zero_or_nan P x, ?_, ?_, f32_lt_zero_iff x, rfl, ?_⟩
  · rintro ⟨h2, h⟩
    rw [sqrtf_approx_negative P x h h2]
    exact ⟨rfl, by decide, by decide⟩
  · intro h Q
    rcases h with h | h | h | ⟨h2, h⟩
    · rw [sqrtf_approx_zero_or_nan P x (Or.inl h), sqrtf_approx_zero_or_nan Q x (Or.inl h)]
    · rw [sqrtf_approx_zero_or_nan P x (Or.inr (Or.inl h)),
        sqrtf_approx_zero_or_nan Q x (Or.inr (Or.inl h))]
    · rw [sqrtf_approx_zero_or_nan P x (Or.inr (Or.inr h)),
        sqrtf_approx_zero_or_nan Q x (Or.inr (Or.inr h))]
    · rw [sqrtf_approx_negative P x h h2, sqrtf_approx_negative Q x h h2]
  · rw [sqrtf_approx_negative P _ (by decide) (by decide)]
    decide

/-- Witness for C9: minus infinity under the reference primitives, and a NaN with a
payload returned as it is. -/
theorem sqrtf_approx_special_witness :
    (sqrtf_approx ieeePrims 0xFF800000 = F32_NAN_0_DIV_0
      ∧ f32_isNaN (sqrtf_approx ieeePrims 0xFF800000) = true
      ∧ f32_ne (sqrtf_approx ieeePrims 0xFF800000) (sqrtf_approx ieeePrims 0xFF800000) = true)
    ∧ sqrtf_approx ieeePrims 0x7F812345 = 0x7F812345 :=
  ⟨(sqrtf_approx_special ieeePrims 0xFF800000).2.1 ⟨by decide, by decide⟩,
   (sqrtf_approx_special ieeePrims 0x7F812345).1 (Or.inr (Or.inr (by decide)))⟩

/-- C10: on `x = 4.0` the guards of `sqrtf_approx` do not fire, the result is the seed `x`
after exactly ten applications of the step `guess = mul(add(guess, div(x, guess)), 0.5)`,
and with IEEE-754 round-to-nearest-even primitives that result is the pattern of `2.0`,
within `1e-5` of `2`. -/
theorem sqrtf_approx_four :
    (∀ P : Prims, sqrtf_approx P 0x40800000 = (spec_sqrt_step P 0x40800000)^[10] 0x40800000)
    ∧ f32_toRat 0x40800000 = 4
    ∧ sqrtf_approx ieeePrims 0x40800000 = 0x40000000
    ∧ |f32_toRat (sqrtf_approx ieeePrims 0x40800000) - 2| < 1 / 100000 := by
  have h4 : f32_val 0x40800000 = 2 ^ 151 := by decide
  have h2 : f32_val 0x40000000 = 2 ^ 150 := by decide
  have hr : sqrtf_approx ieeePrims 0x40800000 = 0x40000000 := by decide
  refine ⟨fun P => rfl, ?_, hr, ?_⟩
  · unfold f32_toRat; rw [h4]; norm_num
  · rw [hr]; unfold f32_toRat; rw [h2]; norm_num

/-! ## Frame conditions -/

theorem freg_xreg_disjoint (i j : Nat) (hi : i < 32) (hj : j < 32) :
    cells_disjoint (freg_ptr i) (xreg_ptr j) := by
  unfold cells_disjoint
  rw [freg_ptr_of_lt i hi, xreg_ptr_of_lt j hj]; omega

theorem freg_freg_disjoint (i j : Nat) (hi : i < 32) (hj : j < 32) (hne : i ≠ j) :
    cells_disjoint (freg_ptr i) (freg_ptr j) := by
  unfold cells_disjoint
  rw [freg_ptr_of_lt i hi, freg_ptr_of_lt j hj]; omega

theorem xreg_xreg_disjoint (i j : Nat) (hi : i < 32) (hj : j < 32) (hne : i ≠ j) :
    cells_disjoint (xreg_ptr i) (xreg_ptr j) := by
  unfold cells_disjoint
  rw [xreg_ptr_of_lt i hi, xreg_ptr_of_lt j hj]; omega

theorem load32_store32_cells (m : Mem) (a b v : Nat) (h : cells_disjoint a b) :
    load32 (store32 m a v) b = load32 m b :=
  load32_store32_disjoint m a b v (by unfold cells_disjoint at h; omega)

theorem store_freg_frame (m : Mem) (rd v : Nat) (hrd : rd < 32) :
    writes_only_freg m (store32 m (freg_ptr rd) v) rd := by
  constructor
  · intro i hi hne
    exact load32_store32_cells m _ _ v (freg_freg_disjoint rd i hrd hi (Ne.symm hne))
  · intro j hj
    exact load32_store32_cells m _ _ v (freg_xreg_disjoint rd j hrd hj)

theorem store_xreg_frame (m : Mem) (r v : Nat) (hr : r < 32) :
    writes_only_xreg m (store32 m (xreg_ptr r) v) r := by
  constructor
  · intro j hj hne
    exact load32_store32_cells m _ _ v (xreg_xreg_disjoint r j hr hj (Ne.symm hne))
  · intro i hi
    refine load32_store32_cells m _ _ v ?_
    have h := freg_xreg_disjoint i r hi hr
    unfold cells_disjoint at h ⊢
    omega

theorem fmin_frame (P : Prims) (m : Mem) (rs1 rs2 rd rm : Nat) (hrd : rd < 32) :
    writes_only_freg m (_openvm_fmin_s P m rs1 rs2 rd rm) rd := by
  simp only [_openvm_fmin_s, write_freg_f32]
  split_ifs <;> exact store_freg_frame m rd _ hrd

theorem fmax_frame (P : Prims) (m : Mem) (rs1 rs2 rd rm : Nat) (hrd : rd < 32) :
    writes_only_freg m (_openvm_fmax_s P m rs1 rs2 rd rm) rd := by
  simp only [_openvm_fmax_s, write_freg_f32]
  split_ifs <;> exact store_freg_frame m rd _ hrd

/-- C11: each of the 24 handlers writes one register. With `rd < 32`, after a handler
with a float destination every float register other than `rd` and every integer register
holds what it held before; after a handler with the fixed integer destination every
integer register other than 10 and every float register holds what it held before. The
32 float cells lie at `0xC0000000 + 4*i`, the 32 integer cells at `0xA0000000 + 16*j`,
and these 64 four-byte cells are pairwise disjoint. -/
theorem handlers_write_one_register (P : Prims) (m : Mem) (rs1 rs2 rs3 rd rm : Nat)
    (hrd : rd < 32) :
    writes_only_freg m (_openvm_fadd_s P m rs1 rs2 rd rm) rd
    ∧ writes_only_freg m (_openvm_fsub_s P m rs1 rs2 rd rm) rd
    ∧ writes_only_freg m (_openvm_fmul_s P m rs1 rs2 rd rm) rd
    ∧ writes_only_freg m (_openvm_fdiv_s P m rs1 rs2 rd rm) rd
    ∧ writes_only_freg m (_openvm_fsqrt_s P m rs1 rs2 rd rm) rd
    ∧ writes_only_freg m (_openvm_fmin_s P m rs1 rs2 rd rm) rd
    ∧ writes_only_freg m (_openvm_fmax_s P m rs1 rs2 rd rm) rd
    ∧ writes_only_freg m (_openvm_fmadd_s P m rs1 rs2 rs3 rd rm) rd
    ∧ writes_only_freg m (_openvm_fmsub_s P m rs1 rs2 rs3 rd rm) rd
    ∧ writes_only_freg m (_openvm_fnmadd_s P m rs1 rs2 rs3 rd rm) rd
    ∧ writes_only_freg m (_openvm_fnmsub_s P m rs1 rs2 rs3 rd rm) rd
    ∧ writes_only_freg m (_openvm_fsgnj_s m rs1 rs2 rd rm) rd
    ∧ writes_only_freg m (_openvm_fsgnjn_s m rs1 rs2 rd rm) rd
    ∧ writes_only_freg m (_openvm_fsgnjx_s m rs1 rs2 rd rm) rd
    ∧ writes_only_freg m (_openvm_fcvt_s_w P m rs1 rs2 rd rm) rd
    ∧ writes_only_freg m (_openvm_fcvt_s_wu P m rs1 rs2 rd rm) rd
    ∧ writes_only_freg m (_openvm_fmv_w_x m rs1 rs2 rd rm) rd
    ∧ writes_only_xreg m (_openvm_feq_s P m rs1 rs2 rm) 10
    ∧ writes_only_xreg m (_openvm_flt_s P m rs1 rs2 rm) 10
    ∧ writes_only_xreg m (_openvm_fle_s P m rs1 rs2 rm) 10
    ∧ writes_only_xreg m (_openvm_fcvt_w_s P m rs1 rs2 rm) 10
    ∧ writes_only_xreg m (_openvm_fcvt_wu_s P m rs1 rs2 rm) 10
    ∧ writes_only_xreg m (_openvm_fmv_x_w m rs1 rs2 rm) 10
    ∧ writes_only_xreg m (_openvm_fclass_s m rs1 rs2 rm) 10
    ∧ (∀ i j, i < 32 → j < 32 →
        freg_ptr i = 0xC0000000 + 4 * i ∧ xreg_ptr j = 0xA0000000 + 16 * j
        ∧ cells_disjoint (freg_ptr i) (xreg_ptr j)
        ∧ (i ≠ j → cells_disjoint (freg_ptr i) (freg_ptr j))
        ∧ (i ≠ j → cells_disjoint (xreg_ptr i) (xreg_ptr j))) := by
  have hf : ∀ v, writes_only_freg m (store32 m (freg_ptr rd) v) rd :=
    fun v => store_freg_frame m rd v hrd
  have hx : ∀ v, writes_only_xreg m (store32 m (xreg_ptr 10) v) 10 :=
    fun v => store_xreg_frame m 10 v (by decide)
  refine ⟨hf _, hf _, hf _, hf _, hf _, fmin_frame P m rs1 rs2 rd rm hrd,
    fmax_frame P m rs1 rs2 rd rm hrd, hf _, hf _, hf _, hf _, hf _, hf _, hf _, hf _, hf _, hf _,
    hx _, hx _, hx _, hx _, hx _, hx _, hx _, ?_⟩
  intro i j hi hj
  refine ⟨?_, ?_, freg_xreg_disjoint i j hi hj, freg_freg_disjoint i j hi hj,
    xreg_xreg_disjoint i j hi hj⟩
  · rw [freg_ptr_of_lt i hi]; omega
  · rw [xreg_ptr_of_lt j hj]; omega

/-- Witness for C11: `fadd.s f3, f1, f2` on a memory where `f1 = 1.0`, `f2 = 2.0`,
`f4 = 0.5` and `x10 = 7`; `f4` and `x10` are read back unchanged. -/
theorem handlers_write_one_register_witness :
    freg_bits (_openvm_fadd_s ieeePrims (set_xreg (set_freg_bits (set_freg_bits
        (set_freg_bits mem0 1 0x3F800000) 2 0x40000000) 4 0x3F000000) 10 7) 1 2 3 0) 4
      = 0x3F000000
    ∧ xreg (_openvm_fadd_s ieeePrims (set_xreg (set_freg_bits (set_freg_bits
        (set_freg_bits mem0 1 0x3F800000) 2 0x40000000) 4 0x3F000000) 10 7) 1 2 3 0) 10
      = 7 := by
  have h := (handlers_write_one_register ieeePrims (set_xreg (set_freg_bits (set_freg_bits
        (set_freg_bits mem0 1 0x3F800000) 2 0x40000000) 4 0x3F000000) 10 7) 1 2 0 3 0
        (by decide)).1
  constructor
  · rw [h.1 4 (by decide) (by decide)]; decide
  · rw [h.2 10 (by decide)]; decide

/-! ## Source registers -/

theorem store_freg_sources (m : Mem) (rd v : Nat) (srcs : List Nat) (hrd : rd < 32)
    (hs : ∀ rs, rs ∈ srcs → rs < 32) :
    float_sources_kept_except m (store32 m (freg_ptr rd) v) srcs rd :=
  fun rs hmem hne => (store_freg_frame m rd v hrd).1 rs (hs rs hmem) hne

theorem store_xreg_sources (m : Mem) (v : Nat) (srcs : List Nat)
    (hs : ∀ rs, rs ∈ srcs → rs < 32) :
    float_sources_kept m (store32 m (xreg_ptr 10) v) srcs :=
  fun rs hmem => (store_xreg_frame m 10 v (by decide)).2 rs (hs rs hmem)

/-- Counterexample for C12: with `f1 = 1.0` and `f2 = -1.0`, `fsgnj.s f1, f1, f2` leaves
`-1.0` in its source `f1`, and with `f2 = 2.0`, `fadd.s f1, f1, f2` leaves `3.0` there. -/
theorem source_register_overwritten :
    ¬ (freg_bits (_openvm_fsgnj_s
          (set_freg_bits (set_freg_bits mem0 1 0x3F800000) 2 0xBF800000) 1 2 1 0) 1
        = freg_bits (set_freg_bits (set_freg_bits mem0 1 0x3F800000) 2 0xBF800000) 1)
    ∧ ¬ (freg_bits (_openvm_fadd_s ieeePrims
          (set_freg_bits (set_freg_bits mem0 1 0x3F800000) 2 0x40000000) 1 2 1 0) 1
        = freg_bits (set_freg_bits (set_freg_bits mem0 1 0x3F800000) 2 0x40000000) 1) := by
  decide

/-- C12 (amended): with all indices below 32, a handler leaves every source register other
than its destination unchanged. For the handlers reading and writing float registers
that is each source whose index differs from `rd`; for the handlers reading float
registers and writing integer register 10, and for those reading an integer register
and writing a float register, that is every source. -/
theorem handlers_keep_other_sources (P : Prims) (m : Mem) (rs1 rs2 rs3 rd rm : Nat)
    (h1 : rs1 < 32) (h2 : rs2 < 32) (h3 : rs3 < 32) (hrd : rd < 32) :
    float_sources_kept_except m (_openvm_fadd_s P m rs1 rs2 rd rm) [rs1, rs2] rd
    ∧ float_sources_kept_except m (_openvm_fsub_s P m rs1 rs2 rd rm) [rs1, rs2] rd
    ∧ float_sources_kept_except m (_openvm_fmul_s P m rs1 rs2 rd rm) [rs1, rs2] rd
    ∧ float_sources_kept_except m (_openvm_fdiv_s P m rs1 rs2 rd rm) [rs1, rs2] rd
    ∧ float_sources_kept_except m (_openvm_fsqrt_s P m rs1 rs2 rd rm) [rs1] rd
    ∧ float_sources_kept_except m (_openvm_fmin_s P m rs1 rs2 rd rm) [rs1, rs2] rd
    ∧ float_sources_kept_except m (_openvm_fmax_s P m rs1 rs2 rd rm) [rs1, rs2] rd
    ∧ float_sources_kept_except m (_openvm_fmadd_s P m rs1 rs2 rs3 rd rm) [rs1, rs2, rs3] rd
    ∧ float_sources_kept_except m (_openvm_fmsub_s P m rs1 rs2 rs3 rd rm) [rs1, rs2, rs3] rd
    ∧ float_sources_kept_except m (_openvm_fnmadd_s P m rs1 rs2 rs3 rd rm) [rs1, rs2, rs3] rd
    ∧ float_sources_kept_except m (_openvm_fnmsub_s P m rs1 rs2 rs3 rd rm) [rs1, rs2, rs3] rd
    ∧ float_sources_kept_except m (_openvm_fsgnj_s m rs1 rs2 rd rm) [rs1, rs2] rd
    ∧ float_sources_kept_except m (_openvm_fsgnjn_s m rs1 rs2 rd rm) [rs1, rs2] rd
    ∧ float_sources_kept_except m (_openvm_fsgnjx_s m rs1 rs2 rd rm) [rs1, rs2] rd
    ∧ float_sources_kept m (_openvm_feq_s P m rs1 rs2 rm) [rs1, rs2]
    ∧ float_sources_kept m (_openvm_flt_s P m rs1 rs2 rm) [rs1, rs2]
    ∧ float_sources_kept m (_openvm_fle_s P m rs1 rs2 rm) [rs1, rs2]
    ∧ float_sources_kept m (_openvm_fcvt_w_s P m rs1 rs2 rm) [rs1]
    ∧ float_sources_kept m (_openvm_fcvt_wu_s P m rs1 rs2 rm) [rs1]
    ∧ float_sources_kept m (_openvm_fmv_x_w m rs1 rs2 rm) [rs1]
    ∧ float_sources_kept m (_openvm_fclass_s m rs1 rs2 rm) [rs1]
    ∧ xreg (_openvm_fcvt_s_w P m rs1 rs2 rd rm) rs1 = xreg m rs1
    ∧ xreg (_openvm_fcvt_s_wu P m rs1 rs2 rd rm) rs1 = xreg m rs1
    ∧ xreg (_openvm_fmv_w_x m rs1 rs2 rd rm) rs1 = xreg m rs1 := by
  have s1 : ∀ rs, rs ∈ [rs1] → rs < 32 := by
    intro rs h; simp only [List.mem_singleton] at h; omega
  have s2 : ∀ rs, rs ∈ [rs1, rs2] → rs < 32 := by
    intro rs h; simp only [List.mem_cons, List.mem_singleton, List.not_mem_nil, or_false] at h
    omega
  have s3 : ∀ rs, rs ∈ [rs1, rs2, rs3] → rs < 32 := by
    intro rs h; simp only [List.mem_cons, List.mem_singleton, List.not_mem_nil, or_false] at h
    omega
  have f1 : ∀ v, float_sources_kept_except m (store32 m (freg_ptr rd) v) [rs1] rd :=
    fun v => store_freg_sources m rd v _ hrd s1
  have f2 : ∀ v, float_sources_kept_except m (store32 m (freg_ptr rd) v) [rs1, rs2] rd :=
    fun v => store_freg_sources m rd v _ hrd s2
  have f3 : ∀ v, float_sources_kept_except m (store32 m (freg_ptr rd) v) [rs1, rs2, rs3] rd :=
    fun v => store_freg_sources m rd v _ hrd s3
  have x1 : ∀ v, float_sources_kept m (store32 m (xreg_ptr 10) v) [rs1] :=
    fun v => store_xreg_sources m v _ s1
  have x2 : ∀ v, float_sources_kept m (store32 m (xreg_ptr 10) v) [rs1, rs2] :=
    fun v => store_xreg_sources m v _ s2
  have i1 : ∀ v, xreg (store32 m (freg_ptr rd) v) rs1 = xreg m rs1 :=
    fun v => (store_freg_frame m rd v hrd).2 rs1 h1
  have hmin : float_sources_kept_except m (_openvm_fmin_s P m rs1 rs2 rd rm) [rs1, rs2] rd :=
    fun rs hmem hne => (fmin_frame P m rs1 rs2 rd rm hrd).1 rs (s2 rs hmem) hne
  have hmax : float_sources_kept_except m (_openvm_fmax_s P m rs1 rs2 rd rm) [rs1, rs2] rd :=
    fun rs hmem hne => (fmax_frame P m rs1 rs2 rd rm hrd).1 rs (s2 rs hmem) hne
  exact ⟨f2 _, f2 _, f2 _, f2 _, f1 _, hmin, hmax, f3 _, f3 _, f3 _, f3 _, f2 _, f2 _, f2 _,
    x2 _, x2 _, x2 _, x1 _, x1 _, x1 _, x1 _, i1 _, i1 _, i1 _⟩

/-- Witness for C12 (amended): `fadd.s f3, f1, f2` keeps `f1 = 1.0` and `f2 = 2.0`. -/
theorem handlers_keep_other_sources_witness :
    freg_bits (_openvm_fadd_s ieeePrims
        (set_freg_bits (set_freg_bits mem0 1 0x3F800000) 2 0x40000000) 1 2 3 0) 1 = 0x3F800000
    ∧ freg_bits (_openvm_fadd_s ieeePrims
        (set_freg_bits (set_freg_bits mem0 1 0x3F800000) 2 0x40000000) 1 2 3 0) 2
      = 0x40000000 := by
  have h := (handlers_keep_other_sources ieeePrims
    (set_freg_bits (set_freg_bits mem0 1 0x3F800000) 2 0x40000000) 1 2 0 3 0
    (by decide) (by decide) (by decide) (by decide)).1
  constructor
  · rw [h 1 (by simp) (by decide)]; decide
  · rw [h 2 (by simp) (by decide)]; decide

/-- C13: the rounding-mode argument of each of the 24 handlers has no effect: for any two
values `rm1` and `rm2` the memory after the handler, and so the register file, is the
same. -/
theorem rounding_mode_ignored (P : Prims) (m : Mem) (rs1 rs2 rs3 rd rm1 rm2 : Nat) :
    _openvm_fadd_s P m rs1 rs2 rd rm1 = _openvm_fadd_s P m rs1 rs2 rd rm2
    ∧ _openvm_fsub_s P m rs1 rs2 rd rm1 = _openvm_fsub_s P m rs1 rs2 rd rm2
    ∧ _openvm_fmul_s P m rs1 rs2 rd rm1 = _openvm_fmul_s P m rs1 rs2 rd rm2
    ∧ _openvm_fdiv_s P m rs1 rs2 rd rm1 = _openvm_fdiv_s P m rs1 rs2 rd rm2
    ∧ _openvm_fsqrt_s P m rs1 rs2 rd rm1 = _openvm_fsqrt_s P m rs1 rs2 rd rm2
    ∧ _openvm_fmin_s P m rs1 rs2 rd rm1 = _openvm_fmin_s P m rs1 rs2 rd rm2
    ∧ _openvm_fmax_s P m rs1 rs2 rd rm1 = _openvm_fmax_s P m rs1 rs2 rd rm2
    ∧ _openvm_fmadd_s P m rs1 rs2 rs3 rd rm1 = _openvm_fmadd_s P m rs1 rs2 rs3 rd rm2
    ∧ _openvm_fmsub_s P m rs1 rs2 rs3 rd rm1 = _openvm_fmsub_s P m rs1 rs2 rs3 rd rm2
    ∧ _openvm_fnmadd_s P m rs1 rs2 rs3 rd rm1 = _openvm_fnmadd_s P m rs1 rs2 rs3 rd rm2
    ∧ _openvm_fnmsub_s P m rs1 rs2 rs3 rd rm1 = _openvm_fnmsub_s P m rs1 rs2 rs3 rd rm2
    ∧ _openvm_fsgnj_s m rs1 rs2 rd rm1 = _openvm_fsgnj_s m rs1 rs2 rd rm2
    ∧ _openvm_fsgnjn_s m rs1 rs2 rd rm1 = _openvm_fsgnjn_s m rs1 rs2 rd rm2
    ∧ _openvm_fsgnjx_s m rs1 rs2 rd rm1 = _openvm_fsgnjx_s m rs1 rs2 rd rm2
    ∧ _openvm_feq_s P m rs1 rs2 rm1 = _openvm_feq_s P m rs1 rs2 rm2
    ∧ _openvm_flt_s P m rs1 rs2 rm1 = _openvm_flt_s P m rs1 rs2 rm2
    ∧ _openvm_fle_s P m rs1 rs2 rm1 = _openvm_fle_s P m rs1 rs2 rm2
    ∧ _openvm_fcvt_w_s P m rs1 rs2 rm1 = _openvm_fcvt_w_s P m rs1 rs2 rm2
    ∧ _openvm_fcvt_wu_s P m rs1 rs2 rm1 = _openvm_fcvt_wu_s P m rs1 rs2 rm2
    ∧ _openvm_fcvt_s_w P m rs1 rs2 rd rm1 = _openvm_fcvt_s_w P m rs1 rs2 rd rm2
    ∧ _openvm_fcvt_s_wu P m rs1 rs2 rd rm1 = _openvm_fcvt_s_wu P m rs1 rs2 rd rm2
    ∧ _openvm_fmv_x_w m rs1 rs2 rm1 = _openvm_fmv_x_w m rs1 rs2 rm2
    ∧ _openvm_fmv_w_x m rs1 rs2 rd rm1 = _openvm_fmv_w_x m rs1 rs2 rd rm2
    ∧ _openvm_fclass_s m rs1 rs2 rm1 = _openvm_fclass_s m rs1 rs2 rm2 :=
  ⟨rfl, rfl, rfl, rfl, rfl, rfl, rfl, rfl, rfl, rfl, rfl, rfl, rfl, rfl, rfl, rfl, rfl, rfl,
    rfl, rfl, rfl, rfl, rfl, rfl⟩

/-! ## Sign injection with inverted and combined signs -/

theorem xor_div_mod_two (x c i : Nat) :
    (x ^^^ c) / 2 ^ i % 2 = (x / 2 ^ i % 2 + c / 2 ^ i % 2) % 2 := by
  rw [← Nat.toNat_testBit, ← Nat.toNat_testBit x, ← Nat.toNat_testBit c, Nat.testBit_xor]
  cases x.testBit i <;> cases c.testBit i <;> rfl

theorem xor_mod_of_high (a c : Nat) (hc : c % 2 ^ 31 = 0) :
    (a ^^^ c) % 2 ^ 31 = a % 2 ^ 31 := by
  apply Nat.eq_of_testBit_eq
  intro i
  rw [Nat.testBit_mod_two_pow, Nat.testBit_mod_two_pow, Nat.testBit_xor]
  by_cases hi : i < 31
  · have h := Nat.testBit_mod_two_pow c 31 i
    rw [hc, Nat.zero_testBit] at h
    simp only [hi, decide_True, Bool.true_and] at h ⊢
    rw [← h]; simp
  · simp [hi]

theorem testBit_low_of_mod_eq (r a i : Nat) (h : r % 2 ^ 31 = a % 2 ^ 31) (hi : i < 31) :
    r.testBit i = a.testBit i := by
  have h1 := Nat.testBit_mod_two_pow r 31 i
  have h2 := Nat.testBit_mod_two_pow a 31 i
  rw [h, h2] at h1
  simpa [hi] using h1.symm

theorem fsgnjn_value (m : Mem) (rs1 rs2 rd rm : Nat) :
    freg_bits (_openvm_fsgnjn_s m rs1 rs2 rd rm) rd
      = 2147483648 * (1 - freg_bits m rs2 / 2147483648) + freg_bits m rs1 % 2147483648 := by
  have ha : freg_bits m rs1 < 4294967296 := load32_lt m _
  have hb : freg_bits m rs2 < 4294967296 := load32_lt m _
  have hx := xor_div_mod_two (freg_bits m rs2) 0xFFFFFFFF 31
  simp only [_openvm_fsgnjn_s, set_freg_bits]
  rw [show freg_bits (store32 m (freg_ptr rd) _) rd = load32 (store32 m (freg_ptr rd) _) (freg_ptr rd)
    from rfl, load32_store32_same, and_0x7FFFFFFF, and_0x80000000,
    or_sign_eq_add _ _ (Nat.mod_lt _ (by decide))]
  norm_num at hx
  omega

/-- C14: for all patterns `a` (float register `rs1`) and `b` (float register `rs2`),
`_openvm_fsgnjn_s` leaves in float register `rd` a pattern whose low 31 bits are those of
`a` and whose bit 31 is the inverse of bit 31 of `b`. -/
theorem fsgnjn_magnitude_and_inverted_sign (m : Mem) (rs1 rs2 rd rm : Nat) :
    freg_bits (_openvm_fsgnjn_s m rs1 rs2 rd rm) rd % 2 ^ 31 = freg_bits m rs1 % 2 ^ 31
    ∧ freg_bits (_openvm_fsgnjn_s m rs1 rs2 rd rm) rd / 2 ^ 31 = 1 - freg_bits m rs2 / 2 ^ 31
    ∧ (∀ i, i < 31 → (freg_bits (_openvm_fsgnjn_s m rs1 rs2 rd rm) rd).testBit i
          = (freg_bits m rs1).testBit i)
    ∧ (freg_bits (_openvm_fsgnjn_s m rs1 rs2 rd rm) rd).testBit 31
          = !(freg_bits m rs2).testBit 31 := by
  have hb : freg_bits m rs2 < 4294967296 := load32_lt m _
  have hv := fsgnjn_value m rs1 rs2 rd rm
  have hmod : freg_bits (_openvm_fsgnjn_s m rs1 rs2 rd rm) rd % 2 ^ 31
      = freg_bits m rs1 % 2 ^ 31 := by
    rw [hv]; norm_num; omega
  have hdiv : freg_bits (_openvm_fsgnjn_s m rs1 rs2 rd rm) rd / 2 ^ 31
      = 1 - freg_bits m rs2 / 2 ^ 31 := by
    rw [hv]; norm_num; omega
  refine ⟨hmod, hdiv, fun i hi => testBit_low_of_mod_eq _ _ i hmod hi, ?_⟩
  rw [Nat.testBit_to_div_mod, Nat.testBit_to_div_mod, hdiv]
  have h01 : freg_bits m rs2 / 2 ^ 31 = 0 ∨ freg_bits m rs2 / 2 ^ 31 = 1 := by
    norm_num; omega
  rcases h01 with h | h <;> rw [h] <;> decide

theorem fsgnjx_value (m : Mem) (rs1 rs2 rd rm : Nat) :
    freg_bits (_openvm_fsgnjx_s m rs1 rs2 rd rm) rd
      = freg_bits m rs1 ^^^ (freg_bits m rs2 &&& 0x80000000) := by
  have ha : freg_bits m rs1 < 2 ^ 32 := load32_lt m _
  have hc : freg_bits m rs2 &&& 0x80000000 < 2 ^ 32 :=
    Nat.and_lt_two_pow _ (by decide)
  simp only [_openvm_fsgnjx_s, set_freg_bits]
  rw [show freg_bits (store32 m (freg_ptr rd) _) rd = load32 (store32 m (freg_ptr rd) _) (freg_ptr rd)
    from rfl, load32_store32_same]
  exact Nat.mod_eq_of_lt (Nat.xor_lt_two_pow ha hc)

/-- C15: for all patterns `a` (float register `rs1`) and `b` (float register `rs2`),
`_openvm_fsgnjx_s` leaves in float register `rd` a pattern whose low 31 bits are those of
`a` and whose bit 31 is the exclusive or of bit 31 of `a` and bit 31 of `b`. -/
theorem fsgnjx_magnitude_and_xor_sign (m : Mem) (rs1 rs2 rd rm : Nat) :
    freg_bits (_openvm_fsgnjx_s m rs1 rs2 rd rm) rd % 2 ^ 31 = freg_bits m rs1 % 2 ^ 31
    ∧ freg_bits (_openvm_fsgnjx_s m rs1 rs2 rd rm) rd / 2 ^ 31
        = (freg_bits m rs1 / 2 ^ 31 + freg_bits m rs2 / 2 ^ 31) % 2
    ∧ (∀ i, i < 31 → (freg_bits (_openvm_fsgnjx_s m rs1 rs2 rd rm) rd).testBit i
          = (freg_bits m rs1).testBit i)
    ∧ (freg_bits (_openvm_fsgnjx_s m rs1 rs2 rd rm) rd).testBit 31
          = ((freg_bits m rs1).testBit 31 ^^ (freg_bits m rs2).testBit 31) := by
  have ha : freg_bits m rs1 < 4294967296 := load32_lt m _
  have hb : freg_bits m rs2 < 4294967296 := load32_lt m _
  have hv := fsgnjx_value m rs1 rs2 rd rm
  have hr : freg_bits (_openvm_fsgnjx_s m rs1 rs2 rd rm) rd < 4294967296 := load32_lt _ _
  have hmod : freg_bits (_openvm_fsgnjx_s m rs1 rs2 rd rm) rd % 2 ^ 31
      = freg_bits m rs1 % 2 ^ 31 := by
    rw [hv]
    apply xor_mod_of_high
    rw [and_0x80000000]; norm_num
  have hx := xor_div_mod_two (freg_bits m rs1) (freg_bits m rs2 &&& 0x80000000) 31
  rw [← hv, and_0x80000000] at hx
  have hdiv : freg_bits (_openvm_fsgnjx_s m rs1 rs2 rd rm) rd / 2 ^ 31
      = (freg_bits m rs1 / 2 ^ 31 + freg_bits m rs2 / 2 ^ 31) % 2 := by
    norm_num at hx ⊢
    omega
  refine ⟨hmod, hdiv, fun i hi => testBit_low_of_mod_eq _ _ i hmod hi, ?_⟩
  have h31 : Nat.testBit 2147483648 31 = true := by decide
  rw [hv, Nat.testBit_xor, Nat.testBit_and, h31, Bool.and_true]

/-! ## Dispatch table -/

/-- C16: `openvm_float_dispatch_table` has exactly 24 slots, none of them empty, holding 24
pairwise distinct handlers in the order fadd, fsub, fmul, fdiv, fsqrt, fmin, fmax, fmadd,
fmsub, fnmadd, fnmsub, fsgnj, fsgnjn, fsgnjx, feq, flt, fle, fcvt.w.s, fcvt.wu.s,
fcvt.s.w, fcvt.s.wu, fmv.x.w, fmv.w.x, fclass; each symbol names the handler function of
that operation. -/
theorem dispatch_table_layout :
    openvm_float_dispatch_table.length = 24
    ∧ (∀ i, i < 24 → (openvm_float_dispatch_table[i]?).join.isSome = true)
    ∧ (∀ i, i < 24 → ∀ j, j < 24 → i ≠ j →
        openvm_float_dispatch_table[i]? ≠ openvm_float_dispatch_table[j]?)
    ∧ (openvm_float_dispatch_table.filterMap id).Nodup
    ∧ (openvm_float_dispatch_table.filterMap id).length = 24
    ∧ openvm_float_dispatch_table =
        [some .fadd_s, some .fsub_s, some .fmul_s, some .fdiv_s, some .fsqrt_s,
         some .fmin_s, some .fmax_s, some .fmadd_s, some .fmsub_s, some .fnmadd_s,
         some .fnmsub_s, some .fsgnj_s, some .fsgnjn_s, some .fsgnjx_s, some .feq_s,
         some .flt_s, some .fle_s, some .fcvt_w_s, some .fcvt_wu_s, some .fcvt_s_w,
         some .fcvt_s_wu, some .fmv_x_w, some .fmv_w_x, some .fclass_s]
    ∧ (∀ P : Prims,
        Handler.fn P .fadd_s = .args4 (_openvm_fadd_s P)
        ∧ Handler.fn P .fsub_s = .args4 (_openvm_fsub_s P)
        ∧ Handler.fn P .fmul_s = .args4 (_openvm_fmul_s P)
        ∧ Handler.fn P .fdiv_s = .args4 (_openvm_fdiv_s P)
        ∧ Handler.fn P .fsqrt_s = .args4 (_openvm_fsqrt_s P)
        ∧ Handler.fn P .fmin_s = .args4 (_openvm_fmin_s P)
        ∧ Handler.fn P .fmax_s = .args4 (_openvm_fmax_s P)
        ∧ Handler.fn P .fmadd_s = .args5 (_openvm_fmadd_s P)
        ∧ Handler.fn P .fmsub_s = .args5 (_openvm_fmsub_s P)
        ∧ Handler.fn P .fnmadd_s = .args5 (_openvm_fnmadd_s P)
        ∧ Handler.fn P .fnmsub_s = .args5 (_openvm_fnmsub_s P)
        ∧ Handler.fn P .fsgnj_s = .args4 _openvm_fsgnj_s
        ∧ Handler.fn P .fsgnjn_s = .args4 _openvm_fsgnjn_s
        ∧ Handler.fn P .fsgnjx_s = .args4 _openvm_fsgnjx_s
        ∧ Handler.fn P .feq_s = .args3 (_openvm_feq_s P)
        ∧ Handler.fn P .flt_s = .args3 (_openvm_flt_s P)
        ∧ Handler.fn P .fle_s = .args3 (_openvm_fle_s P)
        ∧ Handler.fn P .fcvt_w_s = .args3 (_openvm_fcvt_w_s P)
        ∧ Handler.fn P .fcvt_wu_s = .args3 (_openvm_fcvt_wu_s P)
        ∧ Handler.fn P .fcvt_s_w = .args4 (_openvm_fcvt_s_w P)
        ∧ Handler.fn P .fcvt_s_wu = .args4 (_openvm_fcvt_s_wu P)
        ∧ Handler.fn P .fmv_x_w = .args3 _openvm_fmv_x_w
        ∧ Handler.fn P .fmv_w_x = .args4 _openvm_fmv_w_x
        ∧ Handler.fn P .fclass_s = .args3 _openvm_fclass_s) := by
  refine ⟨by decide, by decide, by decide, by decide, by decide, by decide, fun P => ?_⟩
  exact ⟨rfl, rfl, rfl, rfl, rfl, rfl, rfl, rfl, rfl, rfl, rfl, rfl, rfl, rfl, rfl, rfl, rfl,
    rfl, rfl, rfl, rfl, rfl, rfl, rfl⟩

/-! ## Exception flags -/

theorem raise_sequence_testBit (fs : List Nat) (f0 i : Nat) :
    (raise_sequence f0 fs).testBit i = (f0.testBit i || fs.any (fun f => f.testBit i)) := by
  induction fs generalizing f0 with
  | nil => simp [raise_sequence]
  | cons f fs ih =>
    have h := ih (softfloat_raiseFlags f0 f)
    simp only [raise_sequence, List.foldl_cons, List.any_cons] at h ⊢
    rw [h, softfloat_raiseFlags, Nat.testBit_or, Bool.or_assoc]

theorem softfloat_raiseFlags_right_comm (s x y : Nat) :
    softfloat_raiseFlags (softfloat_raiseFlags s x) y
      = softfloat_raiseFlags (softfloat_raiseFlags s y) x := by
  simp only [softfloat_raiseFlags, Nat.or_assoc, Nat.or_comm x y]

theorem raise_sequence_eq_or (fs : List Nat) (f0 : Nat) :
    raise_sequence f0 fs = f0 ||| fs.foldr (fun f acc => f ||| acc) 0 := by
  induction fs generalizing f0 with
  | nil => simp [raise_sequence]
  | cons f fs ih =>
    have h := ih (softfloat_raiseFlags f0 f)
    simp only [raise_sequence, List.foldl_cons, List.foldr_cons] at h ⊢
    rw [h, softfloat_raiseFlags, Nat.or_assoc]

/-- C17: starting from any value `f0`, after the calls `softfloat_raiseFlags(f)` for `f` in
`fs` the flag variable is `f0 | f1 | ... | fn`: a bit is set exactly when it was set in
`f0` or in some `f`. So a set bit is never cleared, raising the same flags a second time
changes nothing, the result does not depend on the order of the calls, and the value
stays within any width that holds `f0` and every `f`. -/
theorem flags_only_accumulate (f0 : Nat) (fs : List Nat) :
    raise_sequence f0 fs = f0 ||| fs.foldr (fun f acc => f ||| acc) 0
    ∧ (∀ i, (raise_sequence f0 fs).testBit i = (f0.testBit i || fs.any (fun f => f.testBit i)))
    ∧ (∀ i, f0.testBit i = true → (raise_sequence f0 fs).testBit i = true)
    ∧ (∀ f, softfloat_raiseFlags (softfloat_raiseFlags f0 f) f = softfloat_raiseFlags f0 f)
    ∧ raise_sequence f0 (fs ++ fs) = raise_sequence f0 fs
    ∧ (∀ gs, fs.Perm gs → raise_sequence f0 gs = raise_sequence f0 fs)
    ∧ (∀ w, f0 < 2 ^ w → (∀ f, f ∈ fs → f < 2 ^ w) → raise_sequence f0 fs < 2 ^ w) := by
  refine ⟨raise_sequence_eq_or fs f0, raise_sequence_testBit fs f0, ?_, ?_, ?_, ?_, ?_⟩
  · intro i hi
    rw [raise_sequence_testBit, hi, Bool.true_or]
  · intro f
    simp only [softfloat_raiseFlags, Nat.or_assoc, Nat.or_self]
  · apply Nat.eq_of_testBit_eq
    intro i
    rw [raise_sequence_testBit, raise_sequence_testBit, List.any_append]
    cases f0.testBit i <;> cases fs.any (fun f => f.testBit i) <;> rfl
  · intro gs hp
    exact (hp.foldl_eq' (fun x _ y _ z => softfloat_raiseFlags_right_comm z x y) f0).symm
  · intro w h0 hall
    induction fs generalizing f0 with
    | nil => simpa [raise_sequence] using h0
    | cons f fs ih =>
      have hf : f < 2 ^ w := hall f (List.mem_cons_self f fs)
      have h := ih (softfloat_raiseFlags f0 f) (Nat.or_lt_two_pow h0 hf)
        (fun g hg => hall g (List.mem_cons_of_mem f hg))
      simpa [raise_sequence] using h

/-- Witness for C17: from `f0 = 0x01`, raising `0x10`, `0x04`, `0x10` gives `0x15`, in either
order of the calls. -/
theorem flags_only_accumulate_witness :
    raise_sequence 0x01 [0x10, 0x04, 0x10] = 0x15
    ∧ raise_sequence 0x01 [0x04, 0x10, 0x10] = raise_sequence 0x01 [0x10, 0x04, 0x10]
    ∧ raise_sequence 0x01 [0x10, 0x04, 0x10] < 2 ^ 8 :=
  ⟨by decide,
   (flags_only_accumulate 0x01 [0x10, 0x04, 0x10]).2.2.2.2.2.1 [0x04, 0x10, 0x10] (by decide),
   (flags_only_accumulate 0x01 [0x10, 0x04, 0x10]).2.2.2.2.2.2 8 (by decide) (by decide)⟩

/-! ## Equal operands of minimum and maximum -/

/-- C18: for non-NaN operands on which the less-than primitive returns 0 (equal), both
`_openvm_fmin_s` and `_openvm_fmax_s` write the second operand, the pattern of `rs2`. So
with `-0` in `rs1` and `+0` in `rs2` both write `0x00000000`, and with `+0` in `rs1` and
`-0` in `rs2` both write `0x80000000`. -/
theorem fmin_fmax_equal_operands (P : Prims) (m : Mem) (rs1 rs2 rd rm : Nat)
    (h0 : P.__ltsf2 (read_freg_f32 m rs1) (read_freg_f32 m rs2) = 0) :
    (f32_isNaN (read_freg_f32 m rs1) = false → f32_isNaN (read_freg_f32 m rs2) = false →
      freg_bits (_openvm_fmin_s P m rs1 rs2 rd rm) rd = read_freg_f32 m rs2
      ∧ freg_bits (_openvm_fmax_s P m rs1 rs2 rd rm) rd = read_freg_f32 m rs2)
    ∧ (read_freg_f32 m rs1 = 0x80000000 → read_freg_f32 m rs2 = 0x00000000 →
      freg_bits (_openvm_fmin_s P m rs1 rs2 rd rm) rd = 0x00000000
      ∧ freg_bits (_openvm_fmax_s P m rs1 rs2 rd rm) rd = 0x00000000)
    ∧ (read_freg_f32 m rs1 = 0x00000000 → read_freg_f32 m rs2 = 0x80000000 →
      freg_bits (_openvm_fmin_s P m rs1 rs2 rd rm) rd = 0x80000000
      ∧ freg_bits (_openvm_fmax_s P m rs1 rs2 rd rm) rd = 0x80000000) := by
  have key : f32_isNaN (read_freg_f32 m rs1) = false → f32_isNaN (read_freg_f32 m rs2) = false →
      freg_bits (_openvm_fmin_s P m rs1 rs2 rd rm) rd = read_freg_f32 m rs2
      ∧ freg_bits (_openvm_fmax_s P m rs1 rs2 rd rm) rd = read_freg_f32 m rs2 := by
    intro ha hb
    rw [fmin_value_of_not_nan P m rs1 rs2 rd rm ha hb,
      fmax_value_of_not_nan P m rs1 rs2 rd rm ha hb, h0]
    exact ⟨rfl, rfl⟩
  refine ⟨key, ?_, ?_⟩
  · intro e1 e2
    have h := key (by rw [e1]; decide) (by rw [e2]; decide)
    rw [e2] at h
    exact h
  · intro e1 e2
    have h := key (by rw [e1]; decide) (by rw [e2]; decide)
    rw [e2] at h
    exact h

/-- Witness for C18: the two signed-zero orders under the reference primitives, whose
comparison returns 0 on `-0` and `+0`. -/
theorem fmin_fmax_equal_operands_witness :
    (freg_bits (_openvm_fmin_s ieeePrims
        (set_freg_bits (set_freg_bits mem0 1 0x80000000) 2 0x00000000) 1 2 3 0) 3 = 0x00000000
      ∧ freg_bits (_openvm_fmax_s ieeePrims
        (set_freg_bits (set_freg_bits mem0 1 0x80000000) 2 0x00000000) 1 2 3 0) 3 = 0x00000000)
    ∧ (freg_bits (_openvm_fmin_s ieeePrims
        (set_freg_bits (set_freg_bits mem0 1 0x00000000) 2 0x80000000) 1 2 3 0) 3 = 0x80000000
      ∧ freg_bits (_openvm_fmax_s ieeePrims
        (set_freg_bits (set_freg_bits mem0 1 0x00000000) 2 0x80000000) 1 2 3 0) 3
          = 0x80000000) :=
  ⟨(fmin_fmax_equal_operands ieeePrims
      (set_freg_bits (set_freg_bits mem0 1 0x80000000) 2 0x00000000) 1 2 3 0 (by decide)).2.1
      (by decide) (by decide),
   (fmin_fmax_equal_operands ieeePrims
      (set_freg_bits (set_freg_bits mem0 1 0x00000000) 2 0x80000000) 1 2 3 0 (by decide)).2.2
      (by decide) (by decide)⟩

/-! ## Square root of infinity -/

theorem f32_isNaN_mod (v : Nat) : f32_isNaN (v % 4294967296) = f32_isNaN v := by
  have he : f32_exp (v % 4294967296) = f32_exp v := by
    simp only [f32_exp, and_0xFF, shr_23]; omega
  have hm : f32_mant (v % 4294967296) = f32_mant v := by
    simp only [f32_mant, and_0x7FFFFF]; omega
  simp only [f32_isNaN, he, hm]

theorem sqrtf_loop_nan (P : Prims) (x : Nat)
    (hadd : ∀ a b, f32_isNaN a = true ∨ f32_isNaN b = true → f32_isNaN (P.__addsf3 a b) = true)
    (hmul : ∀ a b, f32_isNaN a = true ∨ f32_isNaN b = true → f32_isNaN (P.__mulsf3 a b) = true)
    (n : Nat) (guess : Nat) (hg : f32_isNaN guess = true) :
    f32_isNaN (sqrtf_loop P x n guess) = true := by
  induction n generalizing guess with
  | zero => exact hg
  | succ n ih =>
    simp only [sqrtf_loop]
    exact ih _ (hmul _ _ (Or.inl (hadd _ _ (Or.inl hg))))

theorem or_quiet_bit (a : Nat) :
    ∃ l, a ||| 0x400000 = 8388608 * (a / 8388608) + l ∧ l < 8388608 ∧ l ≠ 0 := by
  refine ⟨a % 8388608 ||| 0x400000, ?_, ?_, ?_⟩
  · have hl : a % 8388608 < 2 ^ 23 := Nat.mod_lt _ (by decide)
    have hl2 : a % 8388608 ||| 0x400000 < 2 ^ 23 := Nat.or_lt_two_pow hl (by decide)
    have h1 := Nat.mul_add_lt_is_or hl (a / 8388608)
    have h2 := Nat.mul_add_lt_is_or hl2 (a / 8388608)
    have ha : a = 2 ^ 23 * (a / 8388608) + a % 8388608 := by norm_num; omega
    calc a ||| 0x400000 = (2 ^ 23 * (a / 8388608) + a % 8388608) ||| 0x400000 := by rw [← ha]
      _ = 2 ^ 23 * (a / 8388608) ||| (a % 8388608 ||| 0x400000) := by rw [h1, Nat.or_assoc]
      _ = 2 ^ 23 * (a / 8388608) + (a % 8388608 ||| 0x400000) := h2.symm
      _ = 8388608 * (a / 8388608) + (a % 8388608 ||| 0x400000) := by norm_num
  · exact Nat.or_lt_two_pow (n := 23) (Nat.mod_lt _ (by decide)) (by decide)
  · intro h0
    have h := Nat.testBit_or (a % 8388608) 0x400000 22
    rw [h0, Nat.zero_testBit] at h
    have h22 : Nat.testBit 0x400000 22 = true := by decide
    rw [h22, Bool.or_true] at h
    exact absurd h (by decide)

theorem f32_isNaN_quieted (a : Nat) (h : f32_isNaN a = true) :
    f32_isNaN (a ||| 0x400000) = true := by
  obtain ⟨l, hl, hlt, hne⟩ := or_quiet_bit a
  rw [hl]
  simp only [f32_isNaN, f32_exp, f32_mant, and_0xFF, and_0x7FFFFF, shr_23, Bool.and_eq_true,
    beq_iff_eq, bne_iff_ne, ne_eq] at h ⊢
  omega

theorem ieee_add_nan (a b : Nat) (h : f32_isNaN a = true ∨ f32_isNaN b = true) :
    f32_isNaN (ieee_add a b) = true := by
  unfold ieee_add
  by_cases ha : f32_isNaN a = true
  · rw [if_pos ha]; exact f32_isNaN_quieted a ha
  · have hb : f32_isNaN b = true := h.resolve_left ha
    rw [if_neg ha, if_pos hb]; exact f32_isNaN_quieted b hb

theorem ieee_mul_nan (a b : Nat) (h : f32_isNaN a = true ∨ f32_isNaN b = true) :
    f32_isNaN (ieee_mul a b) = true := by
  unfold ieee_mul
  by_cases ha : f32_isNaN a = true
  · rw [if_pos ha]; exact f32_isNaN_quieted a ha
  · have hb : f32_isNaN b = true := h.resolve_left ha
    rw [if_neg ha, if_pos hb]; exact f32_isNaN_quieted b hb

/-- C19: under the IEEE-754 contract of the primitives (`inf / inf` is a NaN, and a NaN
operand of add or mul gives a NaN), `sqrtf_approx` on plus infinity passes both guards,
its first iteration already yields a NaN, every later iteration keeps a NaN, and the
result is a NaN, not plus infinity; so `_openvm_fsqrt_s` writes a NaN when the source
register holds plus infinity. -/
theorem sqrtf_approx_infinity (P : Prims)
    (hdiv : f32_isNaN (P.__divsf3 0x7F800000 0x7F800000) = true)
    (hadd : ∀ a b, f32_isNaN a = true ∨ f32_isNaN b = true → f32_isNaN (P.__addsf3 a b) = true)
    (hmul : ∀ a b, f32_isNaN a = true ∨ f32_isNaN b = true → f32_isNaN (P.__mulsf3 a b) = true) :
    sqrtf_approx P 0x7F800000 = sqrtf_loop P 0x7F800000 10 0x7F800000
    ∧ (∀ n, 0 < n → f32_isNaN (sqrtf_loop P 0x7F800000 n 0x7F800000) = true)
    ∧ f32_isNaN (sqrtf_approx P 0x7F800000) = true
    ∧ sqrtf_approx P 0x7F800000 ≠ 0x7F800000
    ∧ (∀ m rs1 rs2 rd rm, read_freg_f32 m rs1 = 0x7F800000 →
        f32_isNaN (freg_bits (_openvm_fsqrt_s P m rs1 rs2 rd rm) rd) = true) := by
  have hloop : ∀ n, 0 < n → f32_isNaN (sqrtf_loop P 0x7F800000 n 0x7F800000) = true := by
    intro n hn
    obtain ⟨k, rfl⟩ : ∃ k, n = k + 1 := ⟨n - 1, by omega⟩
    simp only [sqrtf_loop]
    exact sqrtf_loop_nan P _ hadd hmul k _ (hmul _ _ (Or.inl (hadd _ _ (Or.inr hdiv))))
  have hres : f32_isNaN (sqrtf_approx P 0x7F800000) = true := hloop 10 (by decide)
  refine ⟨rfl, hloop, hres, ?_, ?_⟩
  · intro h
    rw [h] at hres
    exact absurd hres (by decide)
  · intro m rs1 rs2 rd rm hs
    simp only [_openvm_fsqrt_s]
    rw [freg_bits_write, f32_isNaN_mod, hs]
    exact hres

/-- Witness for C19: the reference primitives satisfy the contract, and the result on plus
infinity is the default quiet NaN. -/
theorem sqrtf_approx_infinity_witness :
    f32_isNaN (sqrtf_approx ieeePrims 0x7F800000) = true
    ∧ sqrtf_approx ieeePrims 0x7F800000 ≠ 0x7F800000
    ∧ sqrtf_approx ieeePrims 0x7F800000 = 0x7FC00000 :=
  ⟨(sqrtf_approx_infinity ieeePrims (by decide) ieee_add_nan ieee_mul_nan).2.2.1,
   (sqrtf_approx_infinity ieeePrims (by decide) ieee_add_nan ieee_mul_nan).2.2.2.1,
   by decide⟩

/-! ## Classification under a sign flip -/

theorem fclass_spec_nan_iff (x : Nat) :
    (f32_isNaN x = true → 8 ≤ fclass_spec x) ∧ (f32_isNaN x = false → fclass_spec x ≤ 7) := by
  unfold fclass_spec
  constructor
  · intro h; rw [if_pos h]; split_ifs <;> omega
  · intro h; rw [if_neg (by rw [h]; decide)]; split_ifs <;> omega

theorem fclass_spec_flip (x y : Nat) (hx : x < 4294967296)
    (hy : y = 2147483648 * (1 - x / 2147483648) + x % 2147483648) :
    (f32_isNaN x = false → fclass_spec y = 7 - fclass_spec x)
    ∧ (f32_isNaN x = true → fclass_spec y = fclass_spec x) := by
  simp only [fclass_spec, f32_isNaN, f32_isInf, f32_sign, f32_exp, f32_mant, and_0xFF,
    and_0x7FFFFF, and_0x1, shr_23, shr_31, Nat.testBit_to_div_mod,
    Bool.and_eq_true, beq_iff_eq, bne_iff_ne, decide_eq_true_eq, Bool.and_eq_false_iff,
    beq_eq_false_iff_ne, bne_eq_false_iff_eq]
  norm_num
  have e1 : y / 8388608 % 256 = x / 8388608 % 256 := by omega
  have e2 : y % 8388608 = x % 8388608 := by omega
  have e3 : y / 4194304 % 2 = x / 4194304 % 2 := by omega
  have e4 : y / 2147483648 % 2 = 1 - x / 2147483648 % 2 := by omega
  rw [e1, e2, e3, e4]
  constructor
  · intro h
    split_ifs <;> omega
  · intro h1 h2
    split_ifs <;> omega

theorem f32_neg_value (x : Nat) (hx : x < 4294967296) :
    f32_neg x = 2147483648 * (1 - x / 2147483648) + x % 2147483648 := by
  have h1 := xor_mod_of_high x 0x80000000 (by decide)
  have h2 := xor_div_mod_two x 0x80000000 31
  have h3 : x ^^^ 0x80000000 < 2 ^ 32 := Nat.xor_lt_two_pow (by norm_num; omega) (by decide)
  unfold f32_neg
  norm_num at h1 h2 h3 ⊢
  omega

/-- C20: let float register `rs` hold `x`. `_openvm_fsgnjn_s` with both sources `rs` writes
`x` with bit 31 inverted to `rd`. If `_openvm_fclass_s` on `x` yields `1 <<< k` with
`k ≤ 7`, which is the case for every `x` that is not a NaN, then on the flipped pattern it
yields `1 <<< (7 - k)`; if `x` is a NaN both classifications are the same. -/
theorem fclass_mirrored_by_sign_flip (m : Mem) (rs rd rm rs2 : Nat) :
    freg_bits (_openvm_fsgnjn_s m rs rs rd rm) rd = f32_neg (freg_bits m rs)
    ∧ (∀ k, k ≤ 7 → xreg (_openvm_fclass_s m rs rs2 rm) 10 = 1 <<< k →
        xreg (_openvm_fclass_s (_openvm_fsgnjn_s m rs rs rd rm) rd rs2 rm) 10 = 1 <<< (7 - k))
    ∧ (f32_isNaN (freg_bits m rs) = false →
        ∃ k, k ≤ 7 ∧ xreg (_openvm_fclass_s m rs rs2 rm) 10 = 1 <<< k)
    ∧ (f32_isNaN (freg_bits m rs) = true →
        xreg (_openvm_fclass_s (_openvm_fsgnjn_s m rs rs rd rm) rd rs2 rm) 10
          = xreg (_openvm_fclass_s m rs rs2 rm) 10) := by
  have hx : freg_bits m rs < 4294967296 := load32_lt m _
  have hv := fsgnjn_value m rs rs rd rm
  have hflip := fclass_spec_flip (freg_bits m rs) _ hx hv
  have hnan := fclass_spec_nan_iff (freg_bits m rs)
  refine ⟨?_, ?_, ?_, ?_⟩
  · rw [hv, f32_neg_value _ hx]
  · intro k hk h
    rw [fclass_value, Nat.shiftLeft_eq, Nat.one_mul] at h
    have hk2 : fclass_spec (freg_bits m rs) = k := Nat.pow_right_injective (le_refl 2) h
    have hn : f32_isNaN (freg_bits m rs) = false := by
      cases hc : f32_isNaN (freg_bits m rs)
      · rfl
      · have := hnan.1 hc; omega
    rw [fclass_value, hflip.1 hn, hk2, Nat.shiftLeft_eq, Nat.one_mul]
  · intro hn
    exact ⟨fclass_spec (freg_bits m rs), hnan.2 hn, by
      rw [fclass_value, Nat.shiftLeft_eq, Nat.one_mul]⟩
  · intro hn
    rw [fclass_value, fclass_value, hflip.2 hn]

/-- Witness for C20: `-1.5` is negative normal (class 1) and its flip `1.5` is positive
normal (class 6); a signaling NaN stays in class 8. -/
theorem fclass_mirrored_by_sign_flip_witness :
    xreg (_openvm_fclass_s (_openvm_fsgnjn_s (set_freg_bits mem0 1 0xBFC00000) 1 1 2 0) 2 0 0) 10
        = 1 <<< (7 - 1)
    ∧ xreg (_openvm_fclass_s (_openvm_fsgnjn_s (set_freg_bits mem0 1 0x7F800001) 1 1 2 0) 2 0 0) 10
        = xreg (_openvm_fclass_s (set_freg_bits mem0 1 0x7F800001) 1 0 0) 10 :=
  ⟨(fclass_mirrored_by_sign_flip (set_freg_bits mem0 1 0xBFC00000) 1 2 0 0).2.1 1
      (by decide) (by decide),
   (fclass_mirrored_by_sign_flip (set_freg_bits mem0 1 0x7F800001) 1 2 0 0).2.2.2 (by decide)⟩

end OpenVM
